import Mathlib

/-!
# Verification of the glb-analyzer mesh-diagnostics core

This file gives a shallow embedding, over exact rational arithmetic, of the
mesh-analysis engine in `src/lib/mesh-diagnostics.ts` / `src/lib/problem-geometry.ts`
(both concatenated in `src/lib/types.ts` of the source drop), and proves or
refutes the frozen claims about it.

Modelling conventions, used consistently below:

* JavaScript `number` (IEEE-754 binary64) is modelled by `ℚ` (exact real
  arithmetic); decimal literals such as `1e-8` are modelled by the exact
  rationals they denote.
* `Math.sqrt` is modelled by `ratSqrt` (integer Newton iteration on
  numerator and denominator, exact whenever the argument is the square of a
  rational); every concrete input used in a witness or counterexample below
  is chosen so that every square root the engine takes on it is such an
  exact square root, and no universal theorem below depends on the value of
  an inexact square root.
* `positions` is a `List ℚ` (the flat `Float32Array`), `indices` a `List ℕ`.
  Out-of-range reads, which yield `undefined`/`NaN` in JavaScript, are
  modelled by a default of `0`; no theorem below depends on a geometric pass
  evaluated at an out-of-range index.
* A JavaScript `Map`/`Set` iterates its keys in first-insertion order; where
  a pass iterates a map we materialise the key list in that order with
  `dedupFirst`.  Where a map is only read back by key we model it as the
  counting / lookup function it represents.
* `Math.acos` is transcendental and not representable over `ℚ`; the dihedral
  pass models it by an explicit placeholder function `acosDegModel`.  No
  theorem below depends on the value of a dihedral angle: the dihedral fields
  appear only in the capacity-cap claim, where the pass is skipped, and in
  invariance claims whose proofs hold for any function in that position.
-/

namespace GlbAnalyzer

/-! ## Generic list helpers -/

/-- Keys of a JavaScript `Map`/`Set` in first-insertion order: the list with
later duplicates removed, keeping first occurrences. -/
def dedupFirst {α : Type} [DecidableEq α] : List α → List α
  | [] => []
  | a :: rest => a :: (dedupFirst rest).filter (· ≠ a)

theorem mem_dedupFirst {α : Type} [DecidableEq α] {x : α} :
    ∀ {l : List α}, x ∈ dedupFirst l ↔ x ∈ l
  | [] => Iff.rfl
  | a :: rest => by
    simp only [dedupFirst, List.mem_cons, List.mem_filter, ne_eq, decide_not,
      Bool.not_eq_true', decide_eq_false_iff_not]
    constructor
    · rintro (rfl | ⟨h, _⟩)
      · exact Or.inl rfl
      · exact Or.inr (mem_dedupFirst.mp h)
    · rintro (rfl | h)
      · exact Or.inl rfl
      · by_cases hx : x = a
        · exact Or.inl hx
        · exact Or.inr ⟨mem_dedupFirst.mpr h, hx⟩

/-- Integer Newton iteration for the floor square root, descending from `x`;
structural in the fuel so that it reduces inside the kernel.  The iteration
is strictly decreasing until it stops, so fuel `n` is never exhausted. -/
def natSqrtIter : ℕ → ℕ → ℕ → ℕ
  | 0, _, x => x
  | fuel + 1, n, x =>
    let next := (x + n / x) / 2
    if next < x then natSqrtIter fuel n next else x

def natSqrtModel (n : ℕ) : ℕ := if n ≤ 1 then n else natSqrtIter n n n

/-- `Math.sqrt` on exact rationals: floor square roots of numerator and
denominator (exact whenever the argument is a square of a rational; see the
header note). -/
def ratSqrt (q : ℚ) : ℚ :=
  if q.num < 0 then 0 else mkRat (natSqrtModel q.num.toNat) (natSqrtModel q.den)

/-! ## Association-list cell maps

JavaScript `Map`s keyed by grid-cell strings `"cx,cy,cz"` are modelled as
association lists from integer cell triple to occupant list, in key-insertion
order; the string key is injective on integer triples.  An absent key reads
as `[]` (a present cell is never empty, so the source's `has`/`get`
distinction collapses). -/

/-- `grid.get(c) ?? []`. -/
def alGet (m : List ((ℤ × ℤ × ℤ) × List ℕ)) (c : ℤ × ℤ × ℤ) : List ℕ :=
  ((m.find? fun p => p.1 = c).map Prod.snd).getD []

/-- Push `t` onto cell `c`, creating the cell at the end on first use. -/
def alPush : List ((ℤ × ℤ × ℤ) × List ℕ) → ℤ × ℤ × ℤ → ℕ →
    List ((ℤ × ℤ × ℤ) × List ℕ)
  | [], c, t => [(c, [t])]
  | (c', l) :: rest, c, t =>
    if c' = c then (c', l ++ [t]) :: rest else (c', l) :: alPush rest c t

/-! ## Mesh basics -/

/-- The triangle list: `indices` read three at a time (`t` occupies offsets
`3t..3t+3`); a ragged tail is dropped, as the source loops `t < ⌊|I|/3⌋`. -/
def tris : List ℕ → List (ℕ × ℕ × ℕ)
  | a :: b :: c :: rest => (a, b, c) :: tris rest
  | _ => []

theorem length_tris : ∀ (I : List ℕ), (tris I).length = I.length / 3
  | [] => rfl
  | [a] => by simp [tris]
  | [a, b] => by simp [tris]
  | a :: b :: c :: rest => by
    simp only [tris, List.length_cons, length_tris rest]
    omega

/-- `positions[3i + c]`; out-of-range reads default to `0` (see header note). -/
def posAt (P : List ℚ) (j : ℕ) : ℚ := P.getD j 0

/-- The vertex list: `positions` read three floats at a time. -/
def verts : List ℚ → List (ℚ × ℚ × ℚ)
  | x :: y :: z :: rest => (x, y, z) :: verts rest
  | _ => []

theorem length_verts : ∀ (P : List ℚ), (verts P).length = P.length / 3
  | [] => rfl
  | [x] => by simp [verts]
  | [x, y] => by simp [verts]
  | x :: y :: z :: rest => by
    simp only [verts, List.length_cons, length_verts rest]
    omega

/-! ## Numeric edge keys (`numericEdgeKey`, `numericDirectedEdgeKey`) -/

/-- `MAX_VERTEX_FOR_NUMERIC_KEY = 2^26`. -/
def KEYBASE : ℕ := 67108864

/-- Order-independent undirected edge key `min·2^26 + max`. -/
def numericEdgeKey (a b : ℕ) : ℕ := min a b * KEYBASE + max a b

/-- Order-dependent directed edge key `from·2^26 + to`. -/
def numericDirectedEdgeKey (a b : ℕ) : ℕ := a * KEYBASE + b

/-- `decodeEdgeKey`: recover the two endpoints from an undirected key. -/
def decodeEdgeKey (k : ℕ) : ℕ × ℕ := (k / KEYBASE, k % KEYBASE)

theorem decodeEdgeKey_directed (a b : ℕ) (hb : b < KEYBASE) :
    decodeEdgeKey (numericDirectedEdgeKey a b) = (a, b) := by
  have hK : 0 < 67108864 := by norm_num
  simp only [decodeEdgeKey, numericDirectedEdgeKey, KEYBASE] at *
  rw [mul_comm, Nat.mul_add_div hK, Nat.mul_add_mod, Nat.div_eq_of_lt hb,
    Nat.mod_eq_of_lt hb, Nat.add_zero]

/-! ## Edge-face map (P1) — `buildEdgeFaceMap` and the inlined copy in
`computeMeshDiagnostics`.

The source builds a `Map` from the undirected key of each of the three edges
of each triangle to the list of triangle indices pushed onto it.  We model
the map by (a) its key list in insertion order (`edgeKeys`), (b) the
incidence count of a key (`edgeIncidence` — the length of its face list) and
(c) the face list itself (`facesOf`). -/

/-- The three undirected edge keys of one triangle, in push order. -/
def triEdgeKeys (t : ℕ × ℕ × ℕ) : List ℕ :=
  [numericEdgeKey t.1 t.2.1, numericEdgeKey t.2.1 t.2.2, numericEdgeKey t.2.2 t.1]

/-- All edge keys pushed while building the edge-face map, in push order. -/
def edgeKeyList (I : List ℕ) : List ℕ := (tris I).flatMap triEdgeKeys

/-- The keys of the edge-face map, in first-insertion order. -/
def edgeKeys (I : List ℕ) : List ℕ := dedupFirst (edgeKeyList I)

/-- `edgeFaceMap.get(k).length`: how many times key `k` was pushed. -/
def edgeIncidence (I : List ℕ) (k : ℕ) : ℕ := (edgeKeyList I).count k

/-- `edgeFaceMap.get(k)`: the triangle indices pushed onto key `k`, in order
(a triangle that contributes the same key twice appears twice). -/
def facesOf (I : List ℕ) (k : ℕ) : List ℕ :=
  (tris I).enum.flatMap fun p => List.replicate ((triEdgeKeys p.2).count k) p.1

/-- `edgeCount = edgeFaceMap.size`. -/
def edgeCountOf (I : List ℕ) : ℕ := (edgeKeys I).length

/-- Edges with exactly one incident face (holes). -/
def boundaryEdgeCountOf (I : List ℕ) : ℕ :=
  (edgeKeys I).countP fun k => edgeIncidence I k = 1

/-- Edges with three or more incident faces. -/
def nonManifoldEdgeCountOf (I : List ℕ) : ℕ :=
  (edgeKeys I).countP fun k => 2 < edgeIncidence I k

theorem length_facesOf_aux (k : ℕ) :
    ∀ (l : List (ℕ × ℕ × ℕ)) (n : ℕ),
      ((l.enumFrom n).flatMap fun p =>
          List.replicate ((triEdgeKeys p.2).count k) p.1).length
        = (l.flatMap triEdgeKeys).count k
  | [], _ => rfl
  | t :: rest, n => by
    simp only [List.enumFrom, List.flatMap_cons, List.length_append,
      List.length_replicate, List.count_append]
    rw [length_facesOf_aux k rest (n + 1)]

theorem length_facesOf (I : List ℕ) (k : ℕ) :
    (facesOf I k).length = edgeIncidence I k := by
  unfold facesOf edgeIncidence edgeKeyList List.enum
  exact length_facesOf_aux k (tris I) 0

/-! ## Bounding volume (P2) — `computeBoundingBox` -/

structure Vec3Q where
  x : ℚ
  y : ℚ
  z : ℚ
deriving DecidableEq

structure BoundingBox where
  min : Vec3Q
  max : Vec3Q
  size : Vec3Q
  diagonal : ℚ
deriving DecidableEq

/-- Minimum of a list, seeded with its head: for a nonempty list this equals
the source's fold that starts from `Infinity`. -/
def listMin (l : List ℚ) : ℚ := l.foldl min (l.headD 0)

/-- Maximum of a list, seeded with its head (source folds from `-Infinity`). -/
def listMax (l : List ℚ) : ℚ := l.foldl max (l.headD 0)

def computeBoundingBox (P : List ℚ) : BoundingBox :=
  if P.length / 3 = 0 then ⟨⟨0, 0, 0⟩, ⟨0, 0, 0⟩, ⟨0, 0, 0⟩, 0⟩
  else
    let vs := verts P
    let xs := vs.map fun v => v.1
    let ys := vs.map fun v => v.2.1
    let zs := vs.map fun v => v.2.2
    let sizeX := listMax xs - listMin xs
    let sizeY := listMax ys - listMin ys
    let sizeZ := listMax zs - listMin zs
    { min := ⟨listMin xs, listMin ys, listMin zs⟩
      max := ⟨listMax xs, listMax ys, listMax zs⟩
      size := ⟨sizeX, sizeY, sizeZ⟩
      diagonal := ratSqrt (sizeX * sizeX + sizeY * sizeY + sizeZ * sizeZ) }

/-! ## Per-triangle geometry -/

/-- `positions[3i]`, `positions[3i+1]`, `positions[3i+2]`. -/
def vx (P : List ℚ) (i : ℕ) : ℚ := posAt P (3 * i)
def vy (P : List ℚ) (i : ℕ) : ℚ := posAt P (3 * i + 1)
def vz (P : List ℚ) (i : ℕ) : ℚ := posAt P (3 * i + 2)

/-- Squared distance between vertices `i` and `j`. -/
def sqDist (P : List ℚ) (i j : ℕ) : ℚ :=
  (vx P j - vx P i) ^ 2 + (vy P j - vy P i) ^ 2 + (vz P j - vz P i) ^ 2

/-- `Math.sqrt((v1x-v0x)**2 + ...)` — edge length from `i` to `j`. -/
def edgeLen (P : List ℚ) (i j : ℕ) : ℚ := ratSqrt (sqDist P i j)

/-- Unnormalized face normal `(v1-v0) × (v2-v0)` (`computeFaceNormal` and the
inlined copies). -/
def triNormal (P : List ℚ) (t : ℕ × ℕ × ℕ) : ℚ × ℚ × ℚ :=
  let e1x := vx P t.2.1 - vx P t.1
  let e1y := vy P t.2.1 - vy P t.1
  let e1z := vz P t.2.1 - vz P t.1
  let e2x := vx P t.2.2 - vx P t.1
  let e2y := vy P t.2.2 - vy P t.1
  let e2z := vz P t.2.2 - vz P t.1
  (e1y * e2z - e1z * e2y, e1z * e2x - e1x * e2z, e1x * e2y - e1y * e2x)

/-- `nx*nx + ny*ny + nz*nz` for the face normal — equals `4·A²`. -/
def triNormSq (P : List ℚ) (t : ℕ × ℕ × ℕ) : ℚ :=
  let n := triNormal P t
  n.1 * n.1 + n.2.1 * n.2.1 + n.2.2 * n.2.2

/-- Triangle area `0.5 · ‖n‖` as the source computes it. -/
def triArea (P : List ℚ) (t : ℕ × ℕ × ℕ) : ℚ := (1 / 2) * ratSqrt (triNormSq P t)

/-! ## Degenerate-triangle pass (inlined in `computeMeshDiagnostics`) -/

/-- Total edge length over the first `min(T, 1000)` triangles, edge order
`v0→v1`, `v0→v2`, `v1→v2` as in the source's sampling loop. -/
def sampleTotalEdgeLength (P : List ℚ) (I : List ℕ) : ℚ :=
  ((tris I).take 1000).foldl
    (fun acc t => acc + (edgeLen P t.1 t.2.1 + edgeLen P t.1 t.2.2 + edgeLen P t.2.1 t.2.2)) 0

/-- `avgEdgeLength = sampledEdges > 0 ? totalEdgeLength / sampledEdges : 1`. -/
def avgEdgeLengthSample (P : List ℚ) (I : List ℕ) : ℚ :=
  let n := min (tris I).length 1000
  if n = 0 then 1 else sampleTotalEdgeLength P I / (3 * n)

/-- `expectedAreaSq = 0.1875 * avgEdgeLength * avgEdgeLength`. -/
def expectedAreaSq (P : List ℚ) (I : List ℕ) : ℚ :=
  (3 / 16) * avgEdgeLengthSample P I * avgEdgeLengthSample P I

/-- `areaThresholdSq = expectedAreaSq * 1e-8`. -/
def areaThresholdSq (P : List ℚ) (I : List ℕ) : ℚ :=
  expectedAreaSq P I * (1 / 100000000)

/-- The degenerate count: triangles with `0.25·‖n‖² < areaThresholdSq`. -/
def degenerateTriangleCountOf (P : List ℚ) (I : List ℕ) : ℕ :=
  (tris I).countP fun t => decide ((1 / 4) * triNormSq P t < areaThresholdSq P I)

/-! ## Triangle-quality pass (inlined in `computeMeshDiagnostics`) -/

/-- Edge-length samples pushed per triangle: `|v1-v0|, |v2-v1|, |v0-v2|`. -/
def edgeLengthsOf (P : List ℚ) (I : List ℕ) : List ℚ :=
  (tris I).flatMap fun t => [edgeLen P t.1 t.2.1, edgeLen P t.2.1 t.2.2, edgeLen P t.2.2 t.1]

/-- `computeAspectRatio`; `none` models the `Infinity` returns. -/
def computeAspectRatio (P : List ℚ) (t : ℕ × ℕ × ℕ) : Option ℚ :=
  let e0 := edgeLen P t.1 t.2.1
  let e1 := edgeLen P t.2.1 t.2.2
  let e2 := edgeLen P t.2.2 t.1
  let maxEdge := max e0 (max e1 e2)
  let s := (e0 + e1 + e2) / 2
  let areaSq := s * (s - e0) * (s - e1) * (s - e2)
  if areaSq ≤ 0 then none
  else
    let area := ratSqrt areaSq
    let shortestAltitude := 2 * area / maxEdge
    if shortestAltitude < 1 / 10000000000 then none
    else some (maxEdge / shortestAltitude)

/-- Finite aspect ratios, in triangle order. -/
def aspectRatiosOf (P : List ℚ) (I : List ℕ) : List ℚ :=
  (tris I).filterMap (computeAspectRatio P)

/-- Needles: finite aspect ratio `> 10`. -/
def needleTriangleCountOf (P : List ℚ) (I : List ℕ) : ℕ :=
  (tris I).countP fun t =>
    match computeAspectRatio P t with
    | some ar => decide (10 < ar)
    | none => false

/-- All triangle areas, in triangle order. -/
def triangleAreasOf (P : List ℚ) (I : List ℕ) : List ℚ :=
  (tris I).map (triArea P)

/-- `sortedAreas[Math.floor(len/2)]` (`0` when there are no triangles).
JavaScript's stable ascending sort is modelled by `List.insertionSort`,
which produces the same sorted value list. -/
def medianAreaOf (P : List ℚ) (I : List ℕ) : ℚ :=
  let sorted := (triangleAreasOf P I).insertionSort (· ≤ ·)
  sorted.getD (sorted.length / 2) 0

/-- Tiny triangles: `area < 0.01 · medianArea` and `area > 0`. -/
def tinyTriangleCountOf (P : List ℚ) (I : List ℕ) : ℕ :=
  (triangleAreasOf P I).countP fun a =>
    decide (a < medianAreaOf P I * (1 / 100) ∧ 0 < a)

/-! ## Distribution statistics — `computeStats` -/

structure DistributionStats where
  min : ℚ
  max : ℚ
  mean : ℚ
  median : ℚ
  stdDev : ℚ
deriving DecidableEq

def computeStats (values : List ℚ) : Option DistributionStats :=
  if values.length = 0 then none
  else
    let sorted := values.insertionSort (· ≤ ·)
    let sum := values.foldl (· + ·) (0 : ℚ)
    let mean := sum / (values.length : ℚ)
    let median :=
      if values.length % 2 = 0 then
        (sorted.getD (values.length / 2 - 1) 0 + sorted.getD (values.length / 2) 0) / 2
      else sorted.getD (values.length / 2) 0
    let variance := (values.foldl (fun acc v => acc + (v - mean) ^ 2) (0 : ℚ)) / (values.length : ℚ)
    some ⟨sorted.getD 0 0, sorted.getD (sorted.length - 1) 0, mean, median, ratSqrt variance⟩

/-! ## Winding consistency (P5) — `detectWindingConsistency` -/

/-- Directed keys pushed per triangle, in push order. -/
def directedKeyList (I : List ℕ) : List ℕ :=
  (tris I).flatMap fun t =>
    [numericDirectedEdgeKey t.1 t.2.1, numericDirectedEdgeKey t.2.1 t.2.2,
      numericDirectedEdgeKey t.2.2 t.1]

/-- `directedEdgeCounts.get(k) ?? 0`. -/
def directedEdgeCount (I : List ℕ) (k : ℕ) : ℕ := (directedKeyList I).count k

/-- The entry loop of `detectWindingConsistency`: walks the map entries,
skipping undirected keys already in `checkedEdges`, and accumulates
`(manifoldEdgeCount, inconsistentEdgeCount)`. -/
def windingLoop (counts : ℕ → ℕ) : List ℕ → List ℕ → ℕ × ℕ
  | [], _ => (0, 0)
  | k :: rest, checked =>
    let a := k / KEYBASE
    let b := k % KEYBASE
    let u := numericEdgeKey a b
    if u ∈ checked then windingLoop counts rest checked
    else
      let f := counts k
      let g := counts (numericDirectedEdgeKey b a)
      let tot := f + g
      let r := windingLoop counts rest (u :: checked)
      if tot < 2 then r
      else if 2 < tot then r
      else (r.1 + 1, if f ≠ 1 ∨ g ≠ 1 then r.2 + 1 else r.2)

structure WindingResult where
  inconsistentEdgeCount : ℕ
  consistencyPercent : ℚ
  skipped : Bool
deriving DecidableEq

/-- `MAX_SAFE_TRIANGLES = Math.floor(16777216 / 3)`. -/
def MAX_SAFE_TRIANGLES : ℕ := 16777216 / 3

def detectWindingConsistency (I : List ℕ) : WindingResult :=
  if MAX_SAFE_TRIANGLES < I.length / 3 then ⟨0, -1, true⟩
  else
    let mi := windingLoop (directedEdgeCount I) (dedupFirst (directedKeyList I)) []
    let percent : ℚ := if 0 < mi.1 then ((mi.1 : ℚ) - mi.2) / mi.1 * 100 else 100
    ⟨mi.2, percent, false⟩

/-! ## Duplicate vertices (P7) — `detectDuplicateVertices` -/

/-- One step of the duplicate scan; the grid is modelled as a total function
from cell key to occupant list, empty meaning absent (a present cell is never
empty, so the source's has/get distinction collapses). -/
def detectDuplicateVertices (P : List ℚ) : ℕ :=
  let tolerance : ℚ := 1 / 1000000
  let cellSize := tolerance * 10
  let step := fun (st : List ((ℤ × ℤ × ℤ) × List ℕ) × ℕ) (iv : ℕ × (ℚ × ℚ × ℚ)) =>
    let grid := st.1
    let i := iv.1
    let v := iv.2
    let key : ℤ × ℤ × ℤ := (⌊v.1 / cellSize⌋, ⌊v.2.1 / cellSize⌋, ⌊v.2.2 / cellSize⌋)
    let cell := alGet grid key
    let isDup := cell.any fun j =>
      decide ((v.1 - vx P j) ^ 2 + (v.2.1 - vy P j) ^ 2 + (v.2.2 - vz P j) ^ 2 <
        tolerance * tolerance)
    (alPush grid key i, if isDup then st.2 + 1 else st.2)
  ((verts P).enum.foldl step ([], 0)).2

/-! ## Valence distribution (P8) — `computeValenceDistribution` -/

/-- `valences[v]` after the counting loop: occurrences of `v` in `indices`,
recorded only under the `v < vertexCount` guard. -/
def valenceOf (I : List ℕ) (V : ℕ) (v : ℕ) : ℕ := if v < V then I.count v else 0

/-- The `valence → count` record, keys in first-appearance order. -/
def computeValenceDistribution (I : List ℕ) (V : ℕ) : List (ℕ × ℕ) :=
  let vals := ((List.range V).map fun v => valenceOf I V v).filter fun n => 0 < n
  (dedupFirst vals).map fun val => (val, vals.count val)

/-! ## Connected components (inlined union-find in `computeMeshDiagnostics`)

The source's `find` uses path compression; compression changes only the
parent chains, never the root, so we model the same forest without it and
with fuel `V` (a parent chain in a forest over `V` vertices has length
`< V`).  `union`s touching an out-of-range index fall into JavaScript
typed-array corner cases; we skip them — no theorem below evaluates
`connectedComponents` on an out-of-range input. -/

/-- The parent array is a `List ℕ` mirroring the source's `Uint32Array`. -/
def ufFind (parent : List ℕ) : ℕ → ℕ → ℕ
  | 0, x => x
  | fuel + 1, x => if parent.getD x x = x then x else ufFind parent fuel (parent.getD x x)

def ufUnion (V : ℕ) (parent : List ℕ) (a b : ℕ) : List ℕ :=
  if a < V ∧ b < V then
    let ra := ufFind parent V a
    let rb := ufFind parent V b
    if ra = rb then parent else parent.set ra rb
  else parent

/-- `usedVertices` (a `Set`, insertion order): in-range indices, deduplicated. -/
def usedVertexList (I : List ℕ) (V : ℕ) : List ℕ := dedupFirst (I.filter (· < V))

def usedVertexCountOf (I : List ℕ) (V : ℕ) : ℕ := (usedVertexList I V).length

def connectedComponentsOf (I : List ℕ) (V : ℕ) : ℕ :=
  let parent := (tris I).foldl
    (fun par t => ufUnion V (ufUnion V par t.1 t.2.1) t.2.1 t.2.2) (List.range V)
  (dedupFirst ((usedVertexList I V).map fun v => ufFind parent V v)).length

/-! ## Non-manifold vertices (P4) — `detectNonManifoldVertices`.

`extractProblemGeometry` repeats this loop verbatim to emit pinch-point
positions; it is defined once here and used by both. -/

/-- Keys of `vertexToTriangles` in first-insertion order. -/
def meshVertexKeys (I : List ℕ) : List ℕ :=
  dedupFirst ((tris I).flatMap fun t => [t.1, t.2.1, t.2.2])

/-- The link-graph edge list around `v`: per incident triangle (in index
order) the two other vertices, skipped unless exactly two slots differ from
`v` (`others.length !== 2`). -/
def linkGraphEdges (I : List ℕ) (v : ℕ) : List (ℕ × ℕ) :=
  (tris I).flatMap fun tr =>
    let others := [tr.1, tr.2.1, tr.2.2].filter (· ≠ v)
    if others.length = 2 then [(others.getD 0 0, others.getD 1 0)] else []

/-- BFS work loop with explicit queue; neighbors not yet visited are pushed
in adjacency order.  Fuel bounds total queue traffic; `2·|edges|+2` is enough
since each processed node enqueues at most its degree. -/
def bfsLoop (adj : ℕ → List ℕ) : ℕ → List ℕ → List ℕ → List ℕ
  | 0, _, visited => visited
  | _ + 1, [], visited => visited
  | fuel + 1, cur :: queue, visited =>
    if cur ∈ visited then bfsLoop adj fuel queue visited
    else bfsLoop adj fuel (queue ++ (adj cur).filter (· ∉ visited)) (visited ++ [cur])

def isNonManifoldVertex (I : List ℕ) (v : ℕ) : Bool :=
  let edges := linkGraphEdges I v
  let nodes := dedupFirst (edges.flatMap fun e => [e.1, e.2])
  match nodes with
  | [] => false
  | start :: _ =>
    let adj := fun n =>
      dedupFirst (edges.flatMap fun e =>
        (if e.1 = n then [e.2] else []) ++ (if e.2 = n then [e.1] else []))
    let visited := bfsLoop adj (2 * edges.length + 2) [start] []
    visited.length ≠ nodes.length

/-- The non-manifold (pinch) vertices, in `vertexToTriangles` key order. -/
def nonManifoldVertexList (I : List ℕ) : List ℕ :=
  (meshVertexKeys I).filter (isNonManifoldVertex I)

def detectNonManifoldVertices (I : List ℕ) : ℕ := (nonManifoldVertexList I).length

/-! ## Dihedral analysis (P9) — `computeDihedralAngles` -/

/-- Placeholder for the transcendental `Math.acos(·)·180/π` (see header
note); no theorem below depends on its values. -/
def acosDegModel (c : ℚ) : ℚ := 90 - 90 * c

/-- Dihedral angles per manifold edge, in edge-face-map entry order. -/
def dihedralAnglesList (P : List ℚ) (I : List ℕ) : List ℚ :=
  (edgeKeys I).filterMap fun k =>
    match facesOf I k with
    | [t1, t2] =>
      let n1 := triNormal P ((tris I).getD t1 (0, 0, 0))
      let n2 := triNormal P ((tris I).getD t2 (0, 0, 0))
      let len1 := ratSqrt (n1.1 * n1.1 + n1.2.1 * n1.2.1 + n1.2.2 * n1.2.2)
      let len2 := ratSqrt (n2.1 * n2.1 + n2.2.1 * n2.2.1 + n2.2.2 * n2.2.2)
      if len1 < 1 / 10000000000 ∨ len2 < 1 / 10000000000 then none
      else
        let dot := (n1.1 / len1) * (n2.1 / len2) + (n1.2.1 / len1) * (n2.2.1 / len2) +
          (n1.2.2 / len1) * (n2.2.2 / len2)
        let clampedDot := max (-1) (min 1 dot)
        some (180 - acosDegModel clampedDot)
    | _ => none

def sharpEdgeCountOf (P : List ℚ) (I : List ℕ) : ℕ :=
  (dihedralAnglesList P I).countP fun d => decide (d < 30)

def coplanarEdgeCountOf (P : List ℚ) (I : List ℕ) : ℕ :=
  (dihedralAnglesList P I).countP fun d => decide (170 < d)

/-! ## Spatial hash grid (`SpatialHashGrid` and the inline copies).

Grids are modelled as association lists from integer cell triple to occupant
list, in key-insertion order exactly as a JavaScript `Map`; the string key
`"cx,cy,cz"` is injective on integer triples.  An absent key reads as `[]`
(a present cell is never empty, so the source's `has`/`get` distinction
collapses). -/

def cellRange (lo hi cellSize : ℚ) : List ℤ :=
  let a := ⌊lo / cellSize⌋
  let b := ⌊hi / cellSize⌋
  (List.range (b - a + 1).toNat).map fun n => a + n

/-- The cells covered by an AABB, in the source's x-then-y-then-z loop order. -/
def cellsOfAABB (cellSize minX minY minZ maxX maxY maxZ : ℚ) : List (ℤ × ℤ × ℤ) :=
  (cellRange minX maxX cellSize).flatMap fun cx =>
    (cellRange minY maxY cellSize).flatMap fun cy =>
      (cellRange minZ maxZ cellSize).map fun cz => (cx, cy, cz)

/-- Push `t` onto every listed cell. -/
def gridInsert (g : List ((ℤ × ℤ × ℤ) × List ℕ)) (cells : List (ℤ × ℤ × ℤ)) (t : ℕ) :
    List ((ℤ × ℤ × ℤ) × List ℕ) :=
  cells.foldl (fun g c => alPush g c t) g

/-- The 27-cell neighborhood of a cell, in the source's loop order. -/
def neighborhood27 (c : ℤ × ℤ × ℤ) : List (ℤ × ℤ × ℤ) :=
  ([-1, 0, 1] : List ℤ).flatMap fun dx =>
    ([-1, 0, 1] : List ℤ).flatMap fun dy =>
      ([-1, 0, 1] : List ℤ).map fun dz => (c.1 + dx, c.2.1 + dy, c.2.2 + dz)

/-- Axis-aligned bounds of one triangle (`Math.min/max` over the three
vertices). -/
structure AABB where
  minX : ℚ
  minY : ℚ
  minZ : ℚ
  maxX : ℚ
  maxY : ℚ
  maxZ : ℚ
deriving DecidableEq, Inhabited

def triAABB (P : List ℚ) (t : ℕ × ℕ × ℕ) : AABB :=
  ⟨min (vx P t.1) (min (vx P t.2.1) (vx P t.2.2)),
    min (vy P t.1) (min (vy P t.2.1) (vy P t.2.2)),
    min (vz P t.1) (min (vz P t.2.1) (vz P t.2.2)),
    max (vx P t.1) (max (vx P t.2.1) (vx P t.2.2)),
    max (vy P t.1) (max (vy P t.2.1) (vy P t.2.2)),
    max (vz P t.1) (max (vz P t.2.1) (vz P t.2.2))⟩

def aabbCells (cellSize : ℚ) (b : AABB) : List (ℤ × ℤ × ℤ) :=
  cellsOfAABB cellSize b.minX b.minY b.minZ b.maxX b.maxY b.maxZ

/-! ## Triangle-triangle intersection (Möller) and the simplified test -/

/-- The three vertex coordinates of a triangle, read from `positions`. -/
structure TriC where
  a : Vec3Q
  b : Vec3Q
  c : Vec3Q
deriving DecidableEq

def triCOf (P : List ℚ) (t : ℕ × ℕ × ℕ) : TriC :=
  ⟨⟨vx P t.1, vy P t.1, vz P t.1⟩, ⟨vx P t.2.1, vy P t.2.1, vz P t.2.1⟩,
    ⟨vx P t.2.2, vy P t.2.2, vz P t.2.2⟩⟩

/-- Unnormalized normal `(b-a) × (c-a)`. -/
def triCNormal (T : TriC) : Vec3Q :=
  ⟨(T.b.y - T.a.y) * (T.c.z - T.a.z) - (T.b.z - T.a.z) * (T.c.y - T.a.y),
    (T.b.z - T.a.z) * (T.c.x - T.a.x) - (T.b.x - T.a.x) * (T.c.z - T.a.z),
    (T.b.x - T.a.x) * (T.c.y - T.a.y) - (T.b.y - T.a.y) * (T.c.x - T.a.x)⟩

/-- Signed distances of `U`'s three vertices to `T`'s plane (normal `n`,
offset `n·T.a`). -/
def planeDists (n : Vec3Q) (T U : TriC) : ℚ × ℚ × ℚ :=
  let d := n.x * T.a.x + n.y * T.a.y + n.z * T.a.z
  (n.x * U.a.x + n.y * U.a.y + n.z * U.a.z - d,
    n.x * U.b.x + n.y * U.b.y + n.z * U.b.z - d,
    n.x * U.c.x + n.y * U.c.y + n.z * U.c.z - d)

/-- `trianglesIntersectSimple`: only the two mutual plane-straddle rejection
tests; anything that survives them counts as intersecting. -/
def trianglesIntersectSimple (T1 T2 : TriC) : Bool :=
  let n1 := triCNormal T1
  let d2 := planeDists n1 T1 T2
  if 1 / 100000000 < d2.1 ∧ 1 / 100000000 < d2.2.1 ∧ 1 / 100000000 < d2.2.2 then false
  else if d2.1 < -(1 / 100000000) ∧ d2.2.1 < -(1 / 100000000) ∧ d2.2.2 < -(1 / 100000000) then
    false
  else
    let n2 := triCNormal T2
    let d1 := planeDists n2 T2 T1
    if 1 / 100000000 < d1.1 ∧ 1 / 100000000 < d1.2.1 ∧ 1 / 100000000 < d1.2.2 then false
    else if d1.1 < -(1 / 100000000) ∧ d1.2.1 < -(1 / 100000000) ∧ d1.2.2 < -(1 / 100000000) then
      false
    else true

/-- `computeTriangleInterval`. -/
def computeTriangleInterval (pa pb pc da db dc : ℚ) : Option (ℚ × ℚ) :=
  let points : List ℚ :=
    (if decide (0 < da) ≠ decide (0 < db) ∧ 1 / 10000000000 < |da - db| then
      [pa + da / (da - db) * (pb - pa)] else []) ++
    (if decide (0 < db) ≠ decide (0 < dc) ∧ 1 / 10000000000 < |db - dc| then
      [pb + db / (db - dc) * (pc - pb)] else []) ++
    (if decide (0 < dc) ≠ decide (0 < da) ∧ 1 / 10000000000 < |dc - da| then
      [pc + dc / (dc - da) * (pa - pc)] else []) ++
    (if |da| < 1 / 100000000 then [pa] else []) ++
    (if |db| < 1 / 100000000 then [pb] else []) ++
    (if |dc| < 1 / 100000000 then [pc] else [])
  if points.length < 2 then none
  else some (points.foldl min (points.headD 0), points.foldl max (points.headD 0))

/-- `segmentsIntersect2D`: strict proper crossing with `1e-8` endpoint
exclusion. -/
def segmentsIntersect2D (ax1 ay1 bx1 by1 ax2 ay2 bx2 by2 : ℚ) : Bool :=
  let d1x := bx1 - ax1
  let d1y := by1 - ay1
  let d2x := bx2 - ax2
  let d2y := by2 - ay2
  let cross := d1x * d2y - d1y * d2x
  if |cross| < 1 / 10000000000 then false
  else
    let dx := ax2 - ax1
    let dy := ay2 - ay1
    let t1 := (dx * d2y - dy * d2x) / cross
    let t2 := (dx * d1y - dy * d1x) / cross
    decide (1 / 100000000 < t1 ∧ t1 < 1 - 1 / 100000000 ∧
      1 / 100000000 < t2 ∧ t2 < 1 - 1 / 100000000)

/-- `pointInTriangle2D`: barycentric inside test. -/
def pointInTriangle2D (px py ax ay bx bY cx cy : ℚ) : Bool :=
  let v0x := cx - ax
  let v0y := cy - ay
  let v1x := bx - ax
  let v1y := bY - ay
  let v2x := px - ax
  let v2y := py - ay
  let dot00 := v0x * v0x + v0y * v0y
  let dot01 := v0x * v1x + v0y * v1y
  let dot02 := v0x * v2x + v0y * v2y
  let dot11 := v1x * v1x + v1y * v1y
  let dot12 := v1x * v2x + v1y * v2y
  let denom := dot00 * dot11 - dot01 * dot01
  if |denom| < 1 / 10000000000 then false
  else
    let inv := 1 / denom
    let u := (dot11 * dot02 - dot01 * dot12) * inv
    let v := (dot00 * dot12 - dot01 * dot02) * inv
    decide (0 ≤ u ∧ 0 ≤ v ∧ u + v < 1)

/-- Project a triangle onto the axis plane dropping the dominant component
of `n` (`coplanarTrianglesOverlap`'s projection choice). -/
def projectTri (T : TriC) (n : Vec3Q) : List (ℚ × ℚ) :=
  if |n.z| ≥ |n.x| ∧ |n.z| ≥ |n.y| then [(T.a.x, T.a.y), (T.b.x, T.b.y), (T.c.x, T.c.y)]
  else if |n.y| ≥ |n.x| then [(T.a.x, T.a.z), (T.b.x, T.b.z), (T.c.x, T.c.z)]
  else [(T.a.y, T.a.z), (T.b.y, T.b.z), (T.c.y, T.c.z)]

/-- `coplanarTrianglesOverlap`: any strict edge crossing, or either first
vertex strictly inside the other triangle. -/
def coplanarTrianglesOverlap (T1 T2 : TriC) (n : Vec3Q) : Bool :=
  let t1 := projectTri T1 n
  let t2 := projectTri T2 n
  let edgeCross :=
    (List.range 3).any fun i =>
      (List.range 3).any fun j =>
        let a1 := t1.getD i (0, 0)
        let b1 := t1.getD ((i + 1) % 3) (0, 0)
        let a2 := t2.getD j (0, 0)
        let b2 := t2.getD ((j + 1) % 3) (0, 0)
        segmentsIntersect2D a1.1 a1.2 b1.1 b1.2 a2.1 a2.2 b2.1 b2.2
  if edgeCross then true
  else
    let p1 := t1.getD 0 (0, 0)
    let q0 := t2.getD 0 (0, 0)
    let q1 := t2.getD 1 (0, 0)
    let q2 := t2.getD 2 (0, 0)
    if pointInTriangle2D p1.1 p1.2 q0.1 q0.2 q1.1 q1.2 q2.1 q2.2 then true
    else
      let r0 := t1.getD 0 (0, 0)
      let r1 := t1.getD 1 (0, 0)
      let r2 := t1.getD 2 (0, 0)
      pointInTriangle2D q0.1 q0.2 r0.1 r0.2 r1.1 r1.2 r2.1 r2.2

/-- `trianglesIntersect`: full Möller test — mutual plane straddle, then
either the coplanar 2D overlap test or the intersection-interval overlap test
on the dominant axis of the intersection line. -/
def trianglesIntersect (T1 T2 : TriC) : Bool :=
  let n1 := triCNormal T1
  let n2 := triCNormal T2
  let d2 := planeDists n1 T1 T2
  if 1 / 100000000 < d2.1 ∧ 1 / 100000000 < d2.2.1 ∧ 1 / 100000000 < d2.2.2 then false
  else if d2.1 < -(1 / 100000000) ∧ d2.2.1 < -(1 / 100000000) ∧ d2.2.2 < -(1 / 100000000) then
    false
  else
    let d1 := planeDists n2 T2 T1
    if 1 / 100000000 < d1.1 ∧ 1 / 100000000 < d1.2.1 ∧ 1 / 100000000 < d1.2.2 then false
    else if d1.1 < -(1 / 100000000) ∧ d1.2.1 < -(1 / 100000000) ∧ d1.2.2 < -(1 / 100000000) then
      false
    else
      let dirX := n1.y * n2.z - n1.z * n2.y
      let dirY := n1.z * n2.x - n1.x * n2.z
      let dirZ := n1.x * n2.y - n1.y * n2.x
      let dirLen := ratSqrt (dirX * dirX + dirY * dirY + dirZ * dirZ)
      if dirLen < 1 / 10000000000 then coplanarTrianglesOverlap T1 T2 n1
      else
        let p1 :=
          if |dirX| ≥ |dirY| ∧ |dirX| ≥ |dirZ| then (T1.a.x, T1.b.x, T1.c.x, T2.a.x, T2.b.x, T2.c.x)
          else if |dirY| ≥ |dirZ| then (T1.a.y, T1.b.y, T1.c.y, T2.a.y, T2.b.y, T2.c.y)
          else (T1.a.z, T1.b.z, T1.c.z, T2.a.z, T2.b.z, T2.c.z)
        match computeTriangleInterval p1.1 p1.2.1 p1.2.2.1 d1.1 d1.2.1 d1.2.2,
            computeTriangleInterval p1.2.2.2.1 p1.2.2.2.2.1 p1.2.2.2.2.2 d2.1 d2.2.1 d2.2.2 with
        | some int1, some int2 =>
          decide (int2.1 - 1 / 100000000 ≤ int1.2 ∧ int1.1 - 1 / 100000000 ≤ int2.2)
        | _, _ => false

/-- `trianglesAdjacent`: the two triangles share two or more vertex indices
(membership of each vertex of the second in the vertex set of the first). -/
def trianglesAdjacent (t u : ℕ × ℕ × ℕ) : Bool :=
  2 ≤ ([u.1, u.2.1, u.2.2].countP fun v => decide (v ∈ [t.1, t.2.1, t.2.2]))

/-! ## Self-intersection detector (P10) — `detectSelfIntersections` -/

/-- Broad-phase cell size in `detectSelfIntersections`: diagonal from the
bounding box (`?? 1`, clamped to `≥ 1e-6`), `avg = diagonal / √(T/2)`, cell
`max(2·avg, 1e-6)`.  (For `T = 0` JavaScript divides by `0` giving
`Infinity`; `ℚ` gives `0` — there are then no triangles and no pairs either
way.) -/
def selfIntersectCellSize (T : ℕ) (bbox : Option BoundingBox) : ℚ :=
  let diagonal := max (bbox.elim 1 BoundingBox.diagonal) (1 / 1000000)
  let avgEdgeLength := diagonal / ratSqrt ((T : ℚ) / 2)
  max (avgEdgeLength * 2) (1 / 1000000)

/-- The grid of `detectSelfIntersections` after all insertions. -/
def selfIntersectGrid (P : List ℚ) (I : List ℕ) (cellSize : ℚ) :
    List ((ℤ × ℤ × ℤ) × List ℕ) :=
  let bounds := (tris I).map (triAABB P)
  (List.range (tris I).length).foldl
    (fun g t => gridInsert g (aabbCells cellSize (bounds.getD t default)) t) []

/-- The pairs counted by `detectSelfIntersections`, in discovery order: for
each `t1` the deduplicated cell candidates with `t1 < t2`, not adjacent, and
passing the full Möller test. -/
def detectSelfIntersectionPairs (P : List ℚ) (I : List ℕ) (bbox : Option BoundingBox) :
    List (ℕ × ℕ) :=
  let T := (tris I).length
  let cellSize := selfIntersectCellSize T bbox
  let bounds := (tris I).map (triAABB P)
  let grid := selfIntersectGrid P I cellSize
  (List.range T).flatMap fun t1 =>
    let candidates :=
      dedupFirst ((aabbCells cellSize (bounds.getD t1 default)).flatMap (alGet grid))
    (candidates.filter fun t2 =>
      t1 < t2 ∧
      ¬ trianglesAdjacent ((tris I).getD t1 (0, 0, 0)) ((tris I).getD t2 (0, 0, 0)) ∧
      trianglesIntersect (triCOf P ((tris I).getD t1 (0, 0, 0)))
        (triCOf P ((tris I).getD t2 (0, 0, 0)))).map fun t2 => (t1, t2)

def detectSelfIntersections (P : List ℚ) (I : List ℕ) (bbox : Option BoundingBox) : ℕ :=
  (detectSelfIntersectionPairs P I bbox).length

/-! ## Overlay broad phase — `estimateCellSize`, `findIntersectingTrianglePairs` -/

/-- `estimateCellSize`: same formula, but the diagonal is recomputed from the
positions directly (no `1e-6` clamp on it) and an empty vertex list yields
`1`. -/
def estimateCellSize (P : List ℚ) (T : ℕ) : ℚ :=
  if P.length / 3 = 0 then 1
  else
    let vs := verts P
    let xs := vs.map fun v => v.1
    let ys := vs.map fun v => v.2.1
    let zs := vs.map fun v => v.2.2
    let sizeX := listMax xs - listMin xs
    let sizeY := listMax ys - listMin ys
    let sizeZ := listMax zs - listMin zs
    let diagonal := ratSqrt (sizeX * sizeX + sizeY * sizeY + sizeZ * sizeZ)
    let avgEdgeLength := diagonal / ratSqrt ((T : ℚ) / 2)
    max (avgEdgeLength * 2) (1 / 1000000)

/-- The overlay's pair finder: same broad phase (inline, with a `checked`
set instead of candidate dedup) but the simplified narrow phase
`trianglesIntersectSimple`. -/
def findIntersectingTrianglePairs (P : List ℚ) (I : List ℕ) : List (ℕ × ℕ) :=
  let T := (tris I).length
  let cellSize := estimateCellSize P T
  let bounds := (tris I).map (triAABB P)
  let grid := (List.range T).foldl
    (fun g t => gridInsert g (aabbCells cellSize (bounds.getD t default)) t) []
  let step := fun (st : List (ℕ × ℕ) × List (ℕ × ℕ)) (t1 : ℕ) =>
    (aabbCells cellSize (bounds.getD t1 default)).foldl
      (fun st c =>
        (alGet grid c).foldl
          (fun st t2 =>
            if t2 ≤ t1 then st
            else if (t1, t2) ∈ st.1 then st
            else
              let checked := (t1, t2) :: st.1
              if trianglesAdjacent ((tris I).getD t1 (0, 0, 0)) ((tris I).getD t2 (0, 0, 0)) then
                (checked, st.2)
              else if trianglesIntersectSimple (triCOf P ((tris I).getD t1 (0, 0, 0)))
                  (triCOf P ((tris I).getD t2 (0, 0, 0))) then
                (checked, st.2 ++ [(t1, t2)])
              else (checked, st.2))
          st)
      st
  ((List.range T).foldl step ([], [])).2

/-! ## T-junction detector (P11) — `detectTJunctions` and the overlay's
brute-force `findTJunctionVertices` -/

/-- The unique undirected edges in insertion order, each kept in the
orientation of its first traversal (keyed by `min·V + max` in `edgeSet`). -/
def tjEdgesLoop (V : ℕ) : List (ℕ × ℕ) → List ℕ → List (ℕ × ℕ)
  | [], _ => []
  | (va, vb) :: rest, seen =>
    let key := if va < vb then va * V + vb else vb * V + va
    if key ∈ seen then tjEdgesLoop V rest seen
    else (va, vb) :: tjEdgesLoop V rest (key :: seen)

def tjEdges (I : List ℕ) (V : ℕ) : List (ℕ × ℕ) :=
  tjEdgesLoop V ((tris I).flatMap fun t => [(t.1, t.2.1), (t.2.1, t.2.2), (t.2.2, t.1)]) []

/-- The per-(vertex, edge) proximity predicate shared by both T-junction
passes: `v` is not an endpoint, the edge is not degenerate, the projection
parameter is strictly inside `(0.01, 0.99)`, and the perpendicular squared
distance is below `toleranceSq`. -/
def tjVertexNearEdge (P : List ℚ) (toleranceSq : ℚ) (v : ℕ) (e : ℕ × ℕ) : Bool :=
  if e.1 = v ∨ e.2 = v then false
  else
    let ex := vx P e.2 - vx P e.1
    let ey := vy P e.2 - vy P e.1
    let ez := vz P e.2 - vz P e.1
    let edgeLenSq := ex * ex + ey * ey + ez * ez
    if edgeLenSq < 1 / 100000000000000000000 then false
    else
      let t := ((vx P v - vx P e.1) * ex + (vy P v - vy P e.1) * ey +
        (vz P v - vz P e.1) * ez) / edgeLenSq
      if t ≤ 1 / 100 ∨ 99 / 100 ≤ t then false
      else
        let dx := vx P v - (vx P e.1 + t * ex)
        let dy := vy P v - (vy P e.1 + t * ey)
        let dz := vz P v - (vz P e.1 + t * ez)
        decide (dx * dx + dy * dy + dz * dz < toleranceSq)

/-- `v` sits on a triangle containing both endpoints of `e` (a legitimate
corner, not a T-junction). -/
def tjConnected (I : List ℕ) (v : ℕ) (e : ℕ × ℕ) : Bool :=
  (tris I).any fun tr =>
    decide (v ∈ [tr.1, tr.2.1, tr.2.2]) ∧ decide (e.1 ∈ [tr.1, tr.2.1, tr.2.2]) ∧
      decide (e.2 ∈ [tr.1, tr.2.1, tr.2.2])

/-- `detectTJunctions`: edges are indexed in a hash grid at their two
endpoints and midpoint; each vertex probes the 27 cells around it. -/
def detectTJunctions (P : List ℚ) (I : List ℕ) (bbox : Option BoundingBox) : ℕ :=
  let V := P.length / 3
  let diagonal := max (bbox.elim 1 BoundingBox.diagonal) (1 / 1000000)
  let tolerance := diagonal * (1 / 10000)
  let toleranceSq := tolerance * tolerance
  let cellSize := max (tolerance * 10) (1 / 1000000)
  let edges := tjEdges I V
  let edgeGrid := edges.enum.foldl
    (fun g p =>
      let e := p.2
      let pts : List (ℚ × ℚ × ℚ) :=
        [(vx P e.1, vy P e.1, vz P e.1), (vx P e.2, vy P e.2, vz P e.2),
          ((vx P e.1 + vx P e.2) / 2, (vy P e.1 + vy P e.2) / 2, (vz P e.1 + vz P e.2) / 2)]
      pts.foldl
        (fun g pt =>
          let c : ℤ × ℤ × ℤ := (⌊pt.1 / cellSize⌋, ⌊pt.2.1 / cellSize⌋, ⌊pt.2.2 / cellSize⌋)
          if p.1 ∈ alGet g c then g else alPush g c p.1)
        g)
    []
  (List.range V).countP fun v =>
    let c : ℤ × ℤ × ℤ :=
      (⌊vx P v / cellSize⌋, ⌊vy P v / cellSize⌋, ⌊vz P v / cellSize⌋)
    let nearbyEdges := dedupFirst ((neighborhood27 c).flatMap (alGet edgeGrid))
    nearbyEdges.any fun ei =>
      let e := edges.getD ei (0, 0)
      tjVertexNearEdge P toleranceSq v e ∧ ¬ tjConnected I v e

/-- The overlay's `findTJunctionVertices`: the same predicate brute-forced
over every (vertex, edge) pair — no spatial hash — with the diagonal taken
unclamped from `diagnostics.boundingBox?.diagonal ?? 1` (passed here as
`diagonal`). -/
def findTJunctionVertices (P : List ℚ) (I : List ℕ) (diagonal : ℚ) : List ℕ :=
  let V := P.length / 3
  let tolerance := diagonal * (1 / 10000)
  let toleranceSq := tolerance * tolerance
  let edges := tjEdges I V
  (List.range V).filter fun v =>
    edges.any fun e => tjVertexNearEdge P toleranceSq v e ∧ ¬ tjConnected I v e

/-! ## Thin walls (P12) — `detectThinWalls` -/

def detectThinWalls (P : List ℚ) (I : List ℕ) (bbox : Option BoundingBox) : ℕ :=
  let V := P.length / 3
  let diagonal := max (bbox.elim 1 BoundingBox.diagonal) (1 / 1000000)
  let absoluteThreshold := diagonal * (1 / 200)
  let thresholdSq := absoluteThreshold * absoluteThreshold
  let cellSize := max (absoluteThreshold * 3) (1 / 1000000)
  let vertexGrid := (List.range V).foldl
    (fun g v =>
      let c : ℤ × ℤ × ℤ := (⌊vx P v / cellSize⌋, ⌊vy P v / cellSize⌋, ⌊vz P v / cellSize⌋)
      alPush g c v)
    []
  (List.range V).countP fun v =>
    let neighborVerts := (tris I).flatMap fun tr =>
      if v ∈ [tr.1, tr.2.1, tr.2.2] then [tr.1, tr.2.1, tr.2.2] else []
    let c : ℤ × ℤ × ℤ := (⌊vx P v / cellSize⌋, ⌊vy P v / cellSize⌋, ⌊vz P v / cellSize⌋)
    (neighborhood27 c).any fun nc =>
      (alGet vertexGrid nc).any fun v2 =>
        v2 ≠ v ∧ v2 ∉ neighborVerts ∧
          decide ((vx P v - vx P v2) ^ 2 + (vy P v - vy P v2) ^ 2 + (vz P v - vz P v2) ^ 2 <
            thresholdSq) ∧
          decide (1 / 100000000000000000000 < (vx P v - vx P v2) ^ 2 + (vy P v - vy P v2) ^ 2 +
            (vz P v - vz P v2) ^ 2)

/-! ## Coincident faces (P13) — `detectCoincidentFaces` -/

def triCentroid (P : List ℚ) (t : ℕ × ℕ × ℕ) : ℚ × ℚ × ℚ :=
  ((vx P t.1 + vx P t.2.1 + vx P t.2.2) / 3, (vy P t.1 + vy P t.2.1 + vy P t.2.2) / 3,
    (vz P t.1 + vz P t.2.1 + vz P t.2.2) / 3)

def detectCoincidentFaces (P : List ℚ) (I : List ℕ) (bbox : Option BoundingBox) : ℕ :=
  let T := (tris I).length
  let diagonal := max (bbox.elim 1 BoundingBox.diagonal) (1 / 1000000)
  let tolerance := diagonal * (1 / 100000)
  let cellSize := max (diagonal / ratSqrt ((T : ℚ) / 10)) (1 / 1000000)
  let centroidGrid := (List.range T).foldl
    (fun g t =>
      let cen := triCentroid P ((tris I).getD t (0, 0, 0))
      let c : ℤ × ℤ × ℤ := (⌊cen.1 / cellSize⌋, ⌊cen.2.1 / cellSize⌋, ⌊cen.2.2 / cellSize⌋)
      alPush g c t)
    []
  ((List.range T).map fun t1 =>
    let tr1 := (tris I).getD t1 (0, 0, 0)
    let cen1 := triCentroid P tr1
    let n1 := triNormal P tr1
    let len1 := ratSqrt (n1.1 * n1.1 + n1.2.1 * n1.2.1 + n1.2.2 * n1.2.2)
    let c : ℤ × ℤ × ℤ := (⌊cen1.1 / cellSize⌋, ⌊cen1.2.1 / cellSize⌋, ⌊cen1.2.2 / cellSize⌋)
    ((neighborhood27 c).flatMap (alGet centroidGrid)).countP fun t2 =>
      let tr2 := (tris I).getD t2 (0, 0, 0)
      let cen2 := triCentroid P tr2
      let n2 := triNormal P tr2
      let len2 := ratSqrt (n2.1 * n2.1 + n2.2.1 * n2.2.1 + n2.2.2 * n2.2.2)
      if t2 ≤ t1 then false
      else if decide (tr1.1 ∈ [tr2.1, tr2.2.1, tr2.2.2]) ∨
          decide (tr1.2.1 ∈ [tr2.1, tr2.2.1, tr2.2.2]) ∨
          decide (tr1.2.2 ∈ [tr2.1, tr2.2.1, tr2.2.2]) then false
      else if len1 < 1 / 10000000000 ∨ len2 < 1 / 10000000000 then false
      else if |((n1.1 * n2.1 + n1.2.1 * n2.2.1 + n1.2.2 * n2.2.2) / (len1 * len2))| <
          999 / 1000 then false
      else if cellSize < ratSqrt ((cen1.1 - cen2.1) ^ 2 + (cen1.2.1 - cen2.2.1) ^ 2 +
          (cen1.2.2 - cen2.2.2) ^ 2) then false
      else
        decide (|(n1.1 * cen2.1 + n1.2.1 * cen2.2.1 + n1.2.2 * cen2.2.2 -
          (n1.1 * vx P tr1.1 + n1.2.1 * vy P tr1.1 + n1.2.2 * vz P tr1.1))| / len1 < tolerance)).sum

/-! ## The diagnostics record and `computeMeshDiagnostics` -/

structure MeshDiagnostics where
  vertexCount : ℤ
  triangleCount : ℤ
  edgeCount : ℤ
  boundaryEdgeCount : ℤ
  nonManifoldEdgeCount : ℤ
  nonManifoldVertexCount : ℤ
  connectedComponents : ℤ
  eulerCharacteristic : ℤ
  degenerateTriangleCount : ℤ
  windingInconsistentEdgeCount : ℤ
  windingConsistencyPercent : ℚ
  windingCheckSkipped : Bool
  duplicateVertexCount : ℤ
  tinyTriangleCount : ℤ
  needleTriangleCount : ℤ
  edgeLengthStats : Option DistributionStats
  aspectRatioStats : Option DistributionStats
  valenceDistribution : Option (List (ℕ × ℕ))
  boundingBox : Option BoundingBox
  isolatedVertexCount : ℤ
  sharpEdgeCount : ℤ
  coplanarEdgeCount : ℤ
  dihedralAngleStats : Option DistributionStats
  selfIntersectionCount : ℤ
  tJunctionCount : ℤ
  thinWallCount : ℤ
  thinWallThreshold : ℚ
  coincidentFaceCount : ℤ
  isWatertight : Bool
  isManifold : Bool
  hasNonManifoldVertices : Bool
  hasConsistentWinding : Bool
deriving DecidableEq

def computeMeshDiagnostics (P : List ℚ) (I : List ℕ) : MeshDiagnostics :=
  let vertexCount := P.length / 3
  let triangleCount := I.length / 3
  if MAX_SAFE_TRIANGLES < triangleCount then
    { vertexCount := vertexCount
      triangleCount := triangleCount
      edgeCount := -1
      boundaryEdgeCount := -1
      nonManifoldEdgeCount := -1
      nonManifoldVertexCount := -1
      connectedComponents := -1
      eulerCharacteristic := -1
      degenerateTriangleCount := -1
      windingInconsistentEdgeCount := -1
      windingConsistencyPercent := -1
      windingCheckSkipped := true
      duplicateVertexCount := -1
      tinyTriangleCount := -1
      needleTriangleCount := -1
      edgeLengthStats := none
      aspectRatioStats := none
      valenceDistribution := none
      boundingBox := some (computeBoundingBox P)
      isolatedVertexCount := -1
      sharpEdgeCount := -1
      coplanarEdgeCount := -1
      dihedralAngleStats := none
      selfIntersectionCount := -1
      tJunctionCount := -1
      thinWallCount := -1
      thinWallThreshold := 1 / 200
      coincidentFaceCount := -1
      isWatertight := false
      isManifold := false
      hasNonManifoldVertices := false
      hasConsistentWinding := false }
  else
    let boundingBox := computeBoundingBox P
    let winding := detectWindingConsistency I
    { vertexCount := vertexCount
      triangleCount := triangleCount
      edgeCount := edgeCountOf I
      boundaryEdgeCount := boundaryEdgeCountOf I
      nonManifoldEdgeCount := nonManifoldEdgeCountOf I
      nonManifoldVertexCount := detectNonManifoldVertices I
      connectedComponents := connectedComponentsOf I vertexCount
      eulerCharacteristic :=
        (usedVertexCountOf I vertexCount : ℤ) - edgeCountOf I + triangleCount
      degenerateTriangleCount := degenerateTriangleCountOf P I
      windingInconsistentEdgeCount := winding.inconsistentEdgeCount
      windingConsistencyPercent := winding.consistencyPercent
      windingCheckSkipped := winding.skipped
      duplicateVertexCount := detectDuplicateVertices P
      tinyTriangleCount := tinyTriangleCountOf P I
      needleTriangleCount := needleTriangleCountOf P I
      edgeLengthStats := computeStats (edgeLengthsOf P I)
      aspectRatioStats := computeStats (aspectRatiosOf P I)
      valenceDistribution := some (computeValenceDistribution I vertexCount)
      boundingBox := some boundingBox
      isolatedVertexCount := (vertexCount : ℤ) - usedVertexCountOf I vertexCount
      sharpEdgeCount := sharpEdgeCountOf P I
      coplanarEdgeCount := coplanarEdgeCountOf P I
      dihedralAngleStats := computeStats (dihedralAnglesList P I)
      selfIntersectionCount := detectSelfIntersections P I (some boundingBox)
      tJunctionCount := detectTJunctions P I (some boundingBox)
      thinWallCount := detectThinWalls P I (some boundingBox)
      thinWallThreshold := 1 / 200
      coincidentFaceCount := detectCoincidentFaces P I (some boundingBox)
      isWatertight := decide (boundaryEdgeCountOf I = 0)
      isManifold := decide (nonManifoldEdgeCountOf I = 0)
      hasNonManifoldVertices := decide (0 < detectNonManifoldVertices I)
      hasConsistentWinding :=
        if winding.skipped then false else decide (199 / 2 ≤ winding.consistencyPercent) }

/-! ## Problem-geometry overlay (P14) — `extractProblemGeometry` -/

structure ProblemGeometry where
  boundaryEdges : List ℚ
  nonManifoldEdges : List ℚ
  nonManifoldVertices : List ℚ
  selfIntersectionCentroids : List ℚ
  tJunctionVertices : List ℚ
deriving DecidableEq

/-- Six floats per pair of intersecting triangles: the average of all six
vertex positions. -/
def pairCentroid (P : List ℚ) (I : List ℕ) (pr : ℕ × ℕ) : List ℚ :=
  let t := (tris I).getD pr.1 (0, 0, 0)
  let u := (tris I).getD pr.2 (0, 0, 0)
  [(vx P t.1 + vx P t.2.1 + vx P t.2.2 + vx P u.1 + vx P u.2.1 + vx P u.2.2) / 6,
    (vy P t.1 + vy P t.2.1 + vy P t.2.2 + vy P u.1 + vy P u.2.1 + vy P u.2.2) / 6,
    (vz P t.1 + vz P t.2.1 + vz P t.2.2 + vz P u.1 + vz P u.2.1 + vz P u.2.2) / 6]

def extractProblemGeometry (P : List ℚ) (I : List ℕ) (diagnostics : MeshDiagnostics) :
    ProblemGeometry :=
  let boundaryEdges := (edgeKeys I).flatMap fun k =>
    if (facesOf I k).length = 1 then
      let e := decodeEdgeKey k
      [vx P e.1, vy P e.1, vz P e.1, vx P e.2, vy P e.2, vz P e.2]
    else []
  let nonManifoldEdges := (edgeKeys I).flatMap fun k =>
    if 2 < (facesOf I k).length then
      let e := decodeEdgeKey k
      [vx P e.1, vy P e.1, vz P e.1, vx P e.2, vy P e.2, vz P e.2]
    else []
  let nonManifoldVertices :=
    if 0 < diagnostics.nonManifoldVertexCount then
      (nonManifoldVertexList I).flatMap fun v => [vx P v, vy P v, vz P v]
    else []
  let selfIntersectionCentroids :=
    if 0 < diagnostics.selfIntersectionCount then
      (findIntersectingTrianglePairs P I).flatMap (pairCentroid P I)
    else []
  let tJunctionVertices :=
    if 0 < diagnostics.tJunctionCount then
      (findTJunctionVertices P I (diagnostics.boundingBox.elim 1 BoundingBox.diagonal)).flatMap
        fun v => [vx P v, vy P v, vz P v]
    else []
  ⟨boundaryEdges, nonManifoldEdges, nonManifoldVertices, selfIntersectionCentroids,
    tJunctionVertices⟩

/-! ## Characterizing the winding loop

`windingLoop` walks directed-edge map entries, processing each undirected
edge once.  We characterize its two counters as counts over the set of
undirected edges, with `f`/`g` the two directed-traversal counts. -/

/-- The undirected key of a directed key. -/
def undirOf (k : ℕ) : ℕ := numericEdgeKey (k / KEYBASE) (k % KEYBASE)

/-- `f`: the forward directed-traversal count of undirected edge `u`. -/
def windF (I : List ℕ) (u : ℕ) : ℕ :=
  directedEdgeCount I (numericDirectedEdgeKey (decodeEdgeKey u).1 (decodeEdgeKey u).2)

/-- `g`: the backward directed-traversal count of undirected edge `u`. -/
def windG (I : List ℕ) (u : ℕ) : ℕ :=
  directedEdgeCount I (numericDirectedEdgeKey (decodeEdgeKey u).2 (decodeEdgeKey u).1)

/-- All undirected edges of the mesh (as canonical keys). -/
def undirEdgeFinset (I : List ℕ) : Finset ℕ := ((directedKeyList I).map undirOf).toFinset

/-- Edges that are manifold for winding purposes: `f + g = 2`. -/
def manifoldWindingEdges (I : List ℕ) : Finset ℕ :=
  (undirEdgeFinset I).filter fun u => windF I u + windG I u = 2

/-- Manifold-for-winding edges with `{f, g} ≠ {1, 1}`. -/
def inconsistentWindingEdges (I : List ℕ) : Finset ℕ :=
  (manifoldWindingEdges I).filter fun u => ¬(windF I u = 1 ∧ windG I u = 1)

/-- The undirected keys the loop actually processes: first occurrences of
`undirOf` over the entry list, excluding those already checked. -/
def newUndir : List ℕ → List ℕ → List ℕ
  | [], _ => []
  | k :: rest, C =>
    let u := undirOf k
    if u ∈ C then newUndir rest C else u :: newUndir rest (u :: C)


/-! ## Spec-side definitions for refinement comparisons

Each definition in this block follows the SPEC's words (not the source) and
is used only to compare a claim's reading against the embedded code. -/

/-- Modelled from the spec: "a triangle is degenerate iff
`4A² < 10⁻⁸·0.1875·ℓ̄²`".  The engine's unnormalized face normal satisfies
`‖n‖² = 4A²` (`triNormSq`), so this reading counts triangles with
`triNormSq < areaThresholdSq`. -/
def specDegenerateCount (P : List ℚ) (I : List ℕ) : ℕ :=
  (tris I).countP fun t => decide (triNormSq P t < areaThresholdSq P I)

/-- Modelled from the spec: "tiny" by the statistical median of the areas —
the median as `computeStats` computes it (mean of the two middle elements
for an even count). -/
def specTinyCount (P : List ℚ) (I : List ℕ) : ℕ :=
  let m := ((computeStats (triangleAreasOf P I)).map DistributionStats.median).getD 0
  (triangleAreasOf P I).countP fun a => decide (a < m * (1 / 100) ∧ 0 < a)

/-- C3: a large 3-4-5-style triangle (bounding diagonal exactly 100) plus a
small far-away triangle, one unreferenced vertex `6` midway along the small
triangle's short edge (caught by the T-junction grid) and one unreferenced
vertex `7` near the quarter point of the long bottom edge (missed by the
grid, which indexes an edge only at its endpoints and midpoint). -/
def tjP : List ℚ :=
  [0, 0, 0, 80, 0, 0, 0, 60, 0,
    70, 50, 0, 351 / 5, 50, 0, 70, 101 / 2, 0,
    701 / 10, 10001 / 200, 0,
    20, 1 / 200, 0]

def tjI : List ℕ := [0, 1, 2, 3, 4, 5]

/-- C4: a 3-4-5 triangle and a scaled copy (`u = 3/1000`) whose squared area
falls between `areaThresholdSq` and `4·areaThresholdSq`. -/
def degP : List ℚ := [0, 0, 0, 3, 0, 0, 0, 4, 0, 10, 0, 0, 10009 / 1000, 0, 0, 10, 12 / 1000, 0]

def degI : List ℕ := [0, 1, 2, 3, 4, 5]

/-- C5: two triangles that straddle each other's planes (the simplified test
reports an intersection) while their intersection-line intervals are
disjoint (the full Möller test reports none).  Bounding diagonal exactly 7. -/
def straddleP : List ℚ := [0, -1, -1, 0, 2, -1, 0, 0, 1, -1, 0, 4, 1, 0, 4, 0, 0, 5]

def straddleI : List ℕ := [0, 1, 2, 3, 4, 5]

/-- C5 witness: two genuinely crossing triangles. -/
def crossP : List ℚ := [0, -1, -1, 0, 1, -1, 0, 0, 1, -1, 0, 0, 1, 0, 0, 0, 0, 2]

/-- C9: triangle areas `1` and `0.009`: tiny against the code's upper-middle
median (`1`), not tiny against the statistical median (`0.5045`). -/
def tinyP : List ℚ := [0, 0, 0, 2, 0, 0, 0, 1, 0, 5, 0, 0, 518 / 100, 0, 0, 5, 1 / 10, 0]

def tinyI : List ℕ := [0, 1, 2, 3, 4, 5]

/-- C10: three vertices, one valid triangle and one triangle whose third
index `5` is out of range (`V = 3`). -/
def oorP : List ℚ := [0, 0, 0, 1, 0, 0, 0, 1, 0]

def oorI : List ℕ := [0, 1, 2, 0, 1, 5]

/-- Closed-cube test mesh (scenario 1 of the spec). -/
def cubeI : List ℕ :=
  [0, 1, 2, 0, 2, 3, 4, 6, 5, 4, 7, 6, 3, 2, 6, 3, 6, 7, 0, 5, 1, 0, 4, 5, 1, 5, 6,
    1, 6, 2, 0, 3, 7, 0, 7, 4]

/-! ## Branch lemmas for `computeMeshDiagnostics` -/

attribute [local semireducible] Rat.add Rat.sub Rat.mul Rat.inv Rat.ofScientific

set_option maxRecDepth 400000

/-- Above the capacity cap the engine short-circuits to the sentinel record. -/
theorem computeMeshDiagnostics_of_cap (P : List ℚ) (I : List ℕ)
    (h : MAX_SAFE_TRIANGLES < I.length / 3) :
    computeMeshDiagnostics P I =
      { vertexCount := (P.length / 3 : ℕ)
        triangleCount := (I.length / 3 : ℕ)
        edgeCount := -1
        boundaryEdgeCount := -1
        nonManifoldEdgeCount := -1
        nonManifoldVertexCount := -1
        connectedComponents := -1
        eulerCharacteristic := -1
        degenerateTriangleCount := -1
        windingInconsistentEdgeCount := -1
        windingConsistencyPercent := -1
        windingCheckSkipped := true
        duplicateVertexCount := -1
        tinyTriangleCount := -1
        needleTriangleCount := -1
        edgeLengthStats := none
        aspectRatioStats := none
        valenceDistribution := none
        boundingBox := some (computeBoundingBox P)
        isolatedVertexCount := -1
        sharpEdgeCount := -1
        coplanarEdgeCount := -1
        dihedralAngleStats := none
        selfIntersectionCount := -1
        tJunctionCount := -1
        thinWallCount := -1
        thinWallThreshold := 1 / 200
        coincidentFaceCount := -1
        isWatertight := false
        isManifold := false
        hasNonManifoldVertices := false
        hasConsistentWinding := false } := by
  unfold computeMeshDiagnostics
  rw [if_pos h]

/-- At or below the cap every pass runs. -/
theorem computeMeshDiagnostics_of_le (P : List ℚ) (I : List ℕ)
    (h : I.length / 3 ≤ MAX_SAFE_TRIANGLES) :
    computeMeshDiagnostics P I =
      { vertexCount := (P.length / 3 : ℕ)
        triangleCount := (I.length / 3 : ℕ)
        edgeCount := edgeCountOf I
        boundaryEdgeCount := boundaryEdgeCountOf I
        nonManifoldEdgeCount := nonManifoldEdgeCountOf I
        nonManifoldVertexCount := detectNonManifoldVertices I
        connectedComponents := connectedComponentsOf I (P.length / 3)
        eulerCharacteristic :=
          (usedVertexCountOf I (P.length / 3) : ℤ) - edgeCountOf I + (I.length / 3 : ℕ)
        degenerateTriangleCount := degenerateTriangleCountOf P I
        windingInconsistentEdgeCount := (detectWindingConsistency I).inconsistentEdgeCount
        windingConsistencyPercent := (detectWindingConsistency I).consistencyPercent
        windingCheckSkipped := (detectWindingConsistency I).skipped
        duplicateVertexCount := detectDuplicateVertices P
        tinyTriangleCount := tinyTriangleCountOf P I
        needleTriangleCount := needleTriangleCountOf P I
        edgeLengthStats := computeStats (edgeLengthsOf P I)
        aspectRatioStats := computeStats (aspectRatiosOf P I)
        valenceDistribution := some (computeValenceDistribution I (P.length / 3))
        boundingBox := some (computeBoundingBox P)
        isolatedVertexCount :=
          ((P.length / 3 : ℕ) : ℤ) - usedVertexCountOf I (P.length / 3)
        sharpEdgeCount := sharpEdgeCountOf P I
        coplanarEdgeCount := coplanarEdgeCountOf P I
        dihedralAngleStats := computeStats (dihedralAnglesList P I)
        selfIntersectionCount := detectSelfIntersections P I (some (computeBoundingBox P))
        tJunctionCount := detectTJunctions P I (some (computeBoundingBox P))
        thinWallCount := detectThinWalls P I (some (computeBoundingBox P))
        thinWallThreshold := 1 / 200
        coincidentFaceCount := detectCoincidentFaces P I (some (computeBoundingBox P))
        isWatertight := decide (boundaryEdgeCountOf I = 0)
        isManifold := decide (nonManifoldEdgeCountOf I = 0)
        hasNonManifoldVertices := decide (0 < detectNonManifoldVertices I)
        hasConsistentWinding :=
          if (detectWindingConsistency I).skipped then false
          else decide (199 / 2 ≤ (detectWindingConsistency I).consistencyPercent) } := by
  unfold computeMeshDiagnostics
  rw [if_neg (not_lt.mpr h)]

/-! ## Claim C1 — the capacity cap -/

/-- C1: for every input whose triangle count exceeds 5,592,405 the analysis
returns a normal diagnostics record (never an error): `vertexCount` and
`triangleCount` hold the true counts, `boundingBox` holds the computed
bounding box, every other integer count field is `-1`,
`windingConsistencyPercent` is `-1`, `windingCheckSkipped` is `true`, every
stat block is absent, and every derived boolean is `false`; no other pass
runs. -/
theorem C1_capacity_cap (P : List ℚ) (I : List ℕ) (h : 5592405 < I.length / 3) :
    computeMeshDiagnostics P I =
      { vertexCount := (P.length / 3 : ℕ)
        triangleCount := (I.length / 3 : ℕ)
        edgeCount := -1
        boundaryEdgeCount := -1
        nonManifoldEdgeCount := -1
        nonManifoldVertexCount := -1
        connectedComponents := -1
        eulerCharacteristic := -1
        degenerateTriangleCount := -1
        windingInconsistentEdgeCount := -1
        windingConsistencyPercent := -1
        windingCheckSkipped := true
        duplicateVertexCount := -1
        tinyTriangleCount := -1
        needleTriangleCount := -1
        edgeLengthStats := none
        aspectRatioStats := none
        valenceDistribution := none
        boundingBox := some (computeBoundingBox P)
        isolatedVertexCount := -1
        sharpEdgeCount := -1
        coplanarEdgeCount := -1
        dihedralAngleStats := none
        selfIntersectionCount := -1
        tJunctionCount := -1
        thinWallCount := -1
        thinWallThreshold := 1 / 200
        coincidentFaceCount := -1
        isWatertight := false
        isManifold := false
        hasNonManifoldVertices := false
        hasConsistentWinding := false } :=
  computeMeshDiagnostics_of_cap P I h

/-- Witness for C1 at a concrete over-cap input (16,777,218 indices, i.e.
5,592,406 triangles). -/
theorem C1_capacity_cap_witness :
    5592405 < (List.replicate 16777218 (0 : ℕ)).length / 3 ∧
      (computeMeshDiagnostics [] (List.replicate 16777218 (0 : ℕ))).edgeCount = -1 ∧
      (computeMeshDiagnostics [] (List.replicate 16777218 (0 : ℕ))).windingCheckSkipped = true ∧
      (computeMeshDiagnostics [] (List.replicate 16777218 (0 : ℕ))).triangleCount = 5592406 := by
  have h : 5592405 < (List.replicate 16777218 (0 : ℕ)).length / 3 := by
    rw [List.length_replicate]
    norm_num
  refine ⟨h, ?_, ?_, ?_⟩ <;> rw [C1_capacity_cap [] (List.replicate 16777218 (0 : ℕ)) h]
  rw [List.length_replicate]
  norm_num

/-! ## Lemmas about the winding loop -/

theorem mem_newUndir : ∀ (L C : List ℕ) (x : ℕ),
    x ∈ newUndir L C ↔ x ∈ L.map undirOf ∧ x ∉ C
  | [], _, _ => by simp [newUndir]
  | k :: rest, C, x => by
    simp only [newUndir, List.map_cons]
    by_cases hu : undirOf k ∈ C
    · rw [if_pos hu, mem_newUndir rest C x]
      constructor
      · rintro ⟨h1, h2⟩
        exact ⟨List.mem_cons_of_mem _ h1, h2⟩
      · rintro ⟨h1, h2⟩
        rcases List.mem_cons.mp h1 with rfl | h1
        · exact absurd hu h2
        · exact ⟨h1, h2⟩
    · rw [if_neg hu, List.mem_cons, mem_newUndir rest (undirOf k :: C) x]
      constructor
      · rintro (rfl | ⟨h1, h2⟩)
        · exact ⟨List.mem_cons_self _ _, hu⟩
        · exact ⟨List.mem_cons_of_mem _ h1, fun hc => h2 (List.mem_cons_of_mem _ hc)⟩
      · rintro ⟨h1, h2⟩
        rcases List.mem_cons.mp h1 with rfl | h1
        · exact Or.inl rfl
        · by_cases hx : x = undirOf k
          · exact Or.inl hx
          · refine Or.inr ⟨h1, fun hc => ?_⟩
            rcases List.mem_cons.mp hc with h | h
            · exact hx h
            · exact h2 h

theorem nodup_newUndir : ∀ (L C : List ℕ), (newUndir L C).Nodup
  | [], _ => List.nodup_nil
  | k :: rest, C => by
    simp only [newUndir]
    by_cases hu : undirOf k ∈ C
    · rw [if_pos hu]
      exact nodup_newUndir rest C
    · rw [if_neg hu]
      refine List.Nodup.cons ?_ (nodup_newUndir rest _)
      intro hmem
      exact ((mem_newUndir rest _ _).mp hmem).2 (List.mem_cons_self _ _)

/-- Decoding a directed key whose `to` part is below the base. -/
theorem div_numericDirectedEdgeKey (a b : ℕ) (hb : b < KEYBASE) :
    numericDirectedEdgeKey a b / KEYBASE = a :=
  congrArg Prod.fst (decodeEdgeKey_directed a b hb)

theorem mod_numericDirectedEdgeKey (a b : ℕ) (hb : b < KEYBASE) :
    numericDirectedEdgeKey a b % KEYBASE = b :=
  congrArg Prod.snd (decodeEdgeKey_directed a b hb)

/-- Decoding an undirected key built from in-range endpoints. -/
theorem decode_numericEdgeKey (a b : ℕ) (ha : a < KEYBASE) (hb : b < KEYBASE) :
    decodeEdgeKey (numericEdgeKey a b) = (min a b, max a b) := by
  have hmax : max a b < KEYBASE := max_lt ha hb
  have h : numericEdgeKey a b = numericDirectedEdgeKey (min a b) (max a b) := rfl
  rw [h, decodeEdgeKey_directed _ _ hmax]

/-- Re-encoding a key from its div/mod parts. -/
theorem directedKey_div_mod (k : ℕ) :
    numericDirectedEdgeKey (k / KEYBASE) (k % KEYBASE) = k := by
  unfold numericDirectedEdgeKey
  rw [mul_comm]
  exact Nat.div_add_mod k KEYBASE

/-- The loop's per-entry quantities match the per-undirected-edge `f`/`g`:
the sum and the `≠ {1,1}` condition are orientation-symmetric. -/
theorem windEntry_eq (counts : ℕ → ℕ) (k : ℕ) (hk : k / KEYBASE < KEYBASE) :
    counts k + counts (numericDirectedEdgeKey (k % KEYBASE) (k / KEYBASE)) =
        counts (numericDirectedEdgeKey (decodeEdgeKey (undirOf k)).1
          (decodeEdgeKey (undirOf k)).2) +
        counts (numericDirectedEdgeKey (decodeEdgeKey (undirOf k)).2
          (decodeEdgeKey (undirOf k)).1) ∧
      ((counts k ≠ 1 ∨ counts (numericDirectedEdgeKey (k % KEYBASE) (k / KEYBASE)) ≠ 1) ↔
        ¬(counts (numericDirectedEdgeKey (decodeEdgeKey (undirOf k)).1
            (decodeEdgeKey (undirOf k)).2) = 1 ∧
          counts (numericDirectedEdgeKey (decodeEdgeKey (undirOf k)).2
            (decodeEdgeKey (undirOf k)).1) = 1)) := by
  have hKpos : 0 < KEYBASE := by norm_num [KEYBASE]
  have hmod : k % KEYBASE < KEYBASE := Nat.mod_lt _ hKpos
  rw [undirOf, decode_numericEdgeKey _ _ hk hmod]
  rcases le_total (k / KEYBASE) (k % KEYBASE) with hle | hle
  · rw [min_eq_left hle, max_eq_right hle]
    dsimp only
    rw [directedKey_div_mod]
    exact ⟨rfl, by tauto⟩
  · rw [min_eq_right hle, max_eq_left hle]
    dsimp only
    rw [directedKey_div_mod]
    exact ⟨by omega, by tauto⟩

/-- The winding loop computes, over the undirected keys it newly meets, the
count of `f+g = 2` edges and of those with `{f,g} ≠ {1,1}`. -/
theorem windingLoop_spec (counts : ℕ → ℕ) :
    ∀ (L C : List ℕ), (∀ k ∈ L, k / KEYBASE < KEYBASE) →
      windingLoop counts L C =
        ((newUndir L C).countP fun u =>
          decide (counts (numericDirectedEdgeKey (decodeEdgeKey u).1 (decodeEdgeKey u).2) +
            counts (numericDirectedEdgeKey (decodeEdgeKey u).2 (decodeEdgeKey u).1) = 2),
        (newUndir L C).countP fun u =>
          decide ((counts (numericDirectedEdgeKey (decodeEdgeKey u).1 (decodeEdgeKey u).2) +
            counts (numericDirectedEdgeKey (decodeEdgeKey u).2 (decodeEdgeKey u).1) = 2) ∧
            ¬(counts (numericDirectedEdgeKey (decodeEdgeKey u).1 (decodeEdgeKey u).2) = 1 ∧
              counts (numericDirectedEdgeKey (decodeEdgeKey u).2 (decodeEdgeKey u).1) = 1)))
  | [], _, _ => by simp [windingLoop, newUndir]
  | k :: rest, C, hL => by
    have hk := hL k (List.mem_cons_self _ _)
    have ihC := windingLoop_spec counts rest C fun x hx => hL x (List.mem_cons_of_mem _ hx)
    have ihC' := windingLoop_spec counts rest (undirOf k :: C)
      fun x hx => hL x (List.mem_cons_of_mem _ hx)
    have hE := windEntry_eq counts k hk
    have hfold : numericEdgeKey (k / KEYBASE) (k % KEYBASE) = undirOf k := rfl
    simp only [windingLoop, newUndir, hfold]
    by_cases hu : undirOf k ∈ C
    · rw [if_pos hu, if_pos hu]
      exact ihC
    · rw [if_neg hu, if_neg hu, ihC']
      simp only [List.countP_cons]
      by_cases h2 : counts k + counts (numericDirectedEdgeKey (k % KEYBASE) (k / KEYBASE)) = 2
      · rw [if_neg (by omega : ¬ counts k +
          counts (numericDirectedEdgeKey (k % KEYBASE) (k / KEYBASE)) < 2)]
        rw [if_neg (by omega : ¬ 2 < counts k +
          counts (numericDirectedEdgeKey (k % KEYBASE) (k / KEYBASE)))]
        have hpm : decide (counts (numericDirectedEdgeKey (decodeEdgeKey (undirOf k)).1
            (decodeEdgeKey (undirOf k)).2) +
            counts (numericDirectedEdgeKey (decodeEdgeKey (undirOf k)).2
            (decodeEdgeKey (undirOf k)).1) = 2) = true := by
          rw [decide_eq_true_iff, ← hE.1]
          exact h2
        by_cases hincons : counts k ≠ 1 ∨
            counts (numericDirectedEdgeKey (k % KEYBASE) (k / KEYBASE)) ≠ 1
        · have hpi : decide ((counts (numericDirectedEdgeKey (decodeEdgeKey (undirOf k)).1
              (decodeEdgeKey (undirOf k)).2) +
              counts (numericDirectedEdgeKey (decodeEdgeKey (undirOf k)).2
              (decodeEdgeKey (undirOf k)).1) = 2) ∧
              ¬(counts (numericDirectedEdgeKey (decodeEdgeKey (undirOf k)).1
                (decodeEdgeKey (undirOf k)).2) = 1 ∧
                counts (numericDirectedEdgeKey (decodeEdgeKey (undirOf k)).2
                (decodeEdgeKey (undirOf k)).1) = 1)) = true := by
            rw [decide_eq_true_iff]
            exact ⟨by rw [← hE.1]; exact h2, hE.2.mp hincons⟩
          rw [if_pos hincons, hpm, hpi]
          simp
        · have hpi : decide ((counts (numericDirectedEdgeKey (decodeEdgeKey (undirOf k)).1
              (decodeEdgeKey (undirOf k)).2) +
              counts (numericDirectedEdgeKey (decodeEdgeKey (undirOf k)).2
              (decodeEdgeKey (undirOf k)).1) = 2) ∧
              ¬(counts (numericDirectedEdgeKey (decodeEdgeKey (undirOf k)).1
                (decodeEdgeKey (undirOf k)).2) = 1 ∧
                counts (numericDirectedEdgeKey (decodeEdgeKey (undirOf k)).2
                (decodeEdgeKey (undirOf k)).1) = 1)) = false := by
            rw [decide_eq_false_iff_not]
            intro hcon
            exact hincons (hE.2.mpr hcon.2)
          rw [if_neg hincons, hpm, hpi]
          simp
      · have hpm : decide (counts (numericDirectedEdgeKey (decodeEdgeKey (undirOf k)).1
            (decodeEdgeKey (undirOf k)).2) +
            counts (numericDirectedEdgeKey (decodeEdgeKey (undirOf k)).2
            (decodeEdgeKey (undirOf k)).1) = 2) = false := by
          rw [decide_eq_false_iff_not, ← hE.1]
          exact h2
        have hpi : decide ((counts (numericDirectedEdgeKey (decodeEdgeKey (undirOf k)).1
            (decodeEdgeKey (undirOf k)).2) +
            counts (numericDirectedEdgeKey (decodeEdgeKey (undirOf k)).2
            (decodeEdgeKey (undirOf k)).1) = 2) ∧
            ¬(counts (numericDirectedEdgeKey (decodeEdgeKey (undirOf k)).1
              (decodeEdgeKey (undirOf k)).2) = 1 ∧
              counts (numericDirectedEdgeKey (decodeEdgeKey (undirOf k)).2
              (decodeEdgeKey (undirOf k)).1) = 1)) = false := by
          rw [decide_eq_false_iff_not]
          intro hcon
          rw [← hE.1] at hcon
          exact h2 hcon.1
        rw [hpm, hpi]
        by_cases hlt : counts k +
            counts (numericDirectedEdgeKey (k % KEYBASE) (k / KEYBASE)) < 2
        · rw [if_pos hlt]
          simp
        · rw [if_neg hlt, if_pos (by omega : 2 < counts k +
            counts (numericDirectedEdgeKey (k % KEYBASE) (k / KEYBASE)))]
          simp

theorem countP_eq_card_filter_of_nodup {l : List ℕ} (hl : l.Nodup) (p : ℕ → Prop)
    [DecidablePred p] :
    (l.countP fun x => decide (p x)) = (l.toFinset.filter p).card := by
  rw [List.countP_eq_length_filter, ← List.toFinset_card_of_nodup (hl.filter _),
    List.toFinset_filter]
  congr 1
  exact Finset.filter_congr fun x _ => by simp

theorem toFinset_newUndir (L : List ℕ) :
    (newUndir L []).toFinset = (L.map undirOf).toFinset := by
  ext x
  simp [List.mem_toFinset, mem_newUndir]

/-- Members of `tris I` have all three slots in `I`. -/
theorem mem_of_mem_tris :
    ∀ (I : List ℕ) (t : ℕ × ℕ × ℕ), t ∈ tris I → t.1 ∈ I ∧ t.2.1 ∈ I ∧ t.2.2 ∈ I
  | a :: b :: c :: rest, t, ht => by
    simp only [tris, List.mem_cons] at ht
    rcases ht with rfl | ht
    · simp
    · have h := mem_of_mem_tris rest t ht
      simp only [List.mem_cons]
      tauto
  | [], _, ht => by simp [tris] at ht
  | [_], _, ht => by simp [tris] at ht
  | [_, _], _, ht => by simp [tris] at ht

theorem directedKeyList_div_lt (I : List ℕ) (hI : ∀ i ∈ I, i < KEYBASE) :
    ∀ k ∈ directedKeyList I, k / KEYBASE < KEYBASE := by
  intro k hk
  unfold directedKeyList at hk
  rcases List.mem_flatMap.mp hk with ⟨t, ht, hmem⟩
  have hm := mem_of_mem_tris _ _ ht
  have h1 := hI _ hm.1
  have h2 := hI _ hm.2.1
  have h3 := hI _ hm.2.2
  simp only [List.mem_cons, List.not_mem_nil, or_false] at hmem
  rcases hmem with rfl | rfl | rfl
  · rw [div_numericDirectedEdgeKey _ _ h2]
    exact h1
  · rw [div_numericDirectedEdgeKey _ _ h3]
    exact h2
  · rw [div_numericDirectedEdgeKey _ _ h1]
    exact h3

theorem toFinset_map_dedupFirst (L : List ℕ) :
    ((dedupFirst L).map undirOf).toFinset = (L.map undirOf).toFinset := by
  ext x
  simp only [List.mem_toFinset, List.mem_map]
  constructor
  · rintro ⟨k, hk, rfl⟩
    exact ⟨k, mem_dedupFirst.mp hk, rfl⟩
  · rintro ⟨k, hk, rfl⟩
    exact ⟨k, mem_dedupFirst.mpr hk, rfl⟩

/-- `detectWindingConsistency` below the cap: the two counters count the
manifold-for-winding edges and the inconsistent ones, and the percent is
`(m − i)/m·100` (or `100` with no manifold edges). -/
theorem detectWindingConsistency_spec (I : List ℕ)
    (hcap : I.length / 3 ≤ MAX_SAFE_TRIANGLES) (hI : ∀ i ∈ I, i < KEYBASE) :
    detectWindingConsistency I =
      { inconsistentEdgeCount := (inconsistentWindingEdges I).card
        consistencyPercent :=
          if 0 < (manifoldWindingEdges I).card then
            (((manifoldWindingEdges I).card : ℚ) - (inconsistentWindingEdges I).card) /
              (manifoldWindingEdges I).card * 100
          else 100
        skipped := false } := by
  unfold detectWindingConsistency
  rw [if_neg (not_lt.mpr hcap)]
  have hL : ∀ k ∈ dedupFirst (directedKeyList I), k / KEYBASE < KEYBASE := fun k hk =>
    directedKeyList_div_lt I hI k (mem_dedupFirst.mp hk)
  rw [windingLoop_spec _ _ [] hL]
  have hnodup := nodup_newUndir (dedupFirst (directedKeyList I)) []
  have hset : (newUndir (dedupFirst (directedKeyList I)) []).toFinset = undirEdgeFinset I := by
    rw [toFinset_newUndir, toFinset_map_dedupFirst]
    rfl
  have hm : (newUndir (dedupFirst (directedKeyList I)) []).countP
      (fun u => decide (directedEdgeCount I
          (numericDirectedEdgeKey (decodeEdgeKey u).1 (decodeEdgeKey u).2) +
        directedEdgeCount I
          (numericDirectedEdgeKey (decodeEdgeKey u).2 (decodeEdgeKey u).1) = 2)) =
      (manifoldWindingEdges I).card := by
    rw [countP_eq_card_filter_of_nodup hnodup, hset]
    rfl
  have hi : (newUndir (dedupFirst (directedKeyList I)) []).countP
      (fun u => decide ((directedEdgeCount I
          (numericDirectedEdgeKey (decodeEdgeKey u).1 (decodeEdgeKey u).2) +
        directedEdgeCount I
          (numericDirectedEdgeKey (decodeEdgeKey u).2 (decodeEdgeKey u).1) = 2) ∧
        ¬(directedEdgeCount I
            (numericDirectedEdgeKey (decodeEdgeKey u).1 (decodeEdgeKey u).2) = 1 ∧
          directedEdgeCount I
            (numericDirectedEdgeKey (decodeEdgeKey u).2 (decodeEdgeKey u).1) = 1))) =
      (inconsistentWindingEdges I).card := by
    rw [countP_eq_card_filter_of_nodup hnodup, hset]
    unfold inconsistentWindingEdges manifoldWindingEdges
    rw [Finset.filter_filter]
    rfl
  rw [hm, hi]

/-! ## Claim C2 — winding-consistency characterization -/

/-- C2: under the capacity cap (and with vertex indices below the `2^26`
key base the encoding assumes), an undirected edge is manifold-for-winding
exactly when its directed-traversal counts satisfy `f+g = 2`;
`windingInconsistentEdgeCount` counts those with `{f,g} ≠ {1,1}`;
`windingConsistencyPercent` is `100·(m−i)/m`, or `100` with no
manifold-for-winding edges; and `hasConsistentWinding` holds exactly when
the check was not skipped and the percent is at least `99.5`. -/
theorem C2_winding_consistency (P : List ℚ) (I : List ℕ)
    (hcap : I.length / 3 ≤ MAX_SAFE_TRIANGLES) (hI : ∀ i ∈ I, i < KEYBASE) :
    manifoldWindingEdges I = (undirEdgeFinset I).filter (fun u => windF I u + windG I u = 2) ∧
      (computeMeshDiagnostics P I).windingInconsistentEdgeCount =
        (((undirEdgeFinset I).filter fun u =>
          windF I u + windG I u = 2 ∧ ¬(windF I u = 1 ∧ windG I u = 1)).card : ℤ) ∧
      (computeMeshDiagnostics P I).windingConsistencyPercent =
        (if 0 < (manifoldWindingEdges I).card then
          (((manifoldWindingEdges I).card : ℚ) - (inconsistentWindingEdges I).card) /
            (manifoldWindingEdges I).card * 100
        else 100) ∧
      (computeMeshDiagnostics P I).windingCheckSkipped = false ∧
      ((computeMeshDiagnostics P I).hasConsistentWinding = true ↔
        (computeMeshDiagnostics P I).windingCheckSkipped = false ∧
          199 / 2 ≤ (computeMeshDiagnostics P I).windingConsistencyPercent) := by
  have hspec := detectWindingConsistency_spec I hcap hI
  have hrec := computeMeshDiagnostics_of_le P I hcap
  have hfilter : inconsistentWindingEdges I = (undirEdgeFinset I).filter fun u =>
      windF I u + windG I u = 2 ∧ ¬(windF I u = 1 ∧ windG I u = 1) := by
    unfold inconsistentWindingEdges manifoldWindingEdges
    rw [Finset.filter_filter]
  refine ⟨rfl, ?_, ?_, ?_, ?_⟩
  · rw [hrec]
    show ((detectWindingConsistency I).inconsistentEdgeCount : ℤ) = _
    rw [hspec, ← hfilter]
  · rw [hrec]
    show (detectWindingConsistency I).consistencyPercent = _
    rw [hspec]
  · rw [hrec]
    show (detectWindingConsistency I).skipped = false
    rw [hspec]
  · rw [hrec]
    show (if (detectWindingConsistency I).skipped then false
      else decide (199 / 2 ≤ (detectWindingConsistency I).consistencyPercent)) = true ↔
      (detectWindingConsistency I).skipped = false ∧
        199 / 2 ≤ (detectWindingConsistency I).consistencyPercent
    rw [hspec]
    simp

/-- Witness for C2 at the closed-cube mesh (12 triangles, consistent
winding). -/
theorem C2_winding_consistency_witness :
    cubeI.length / 3 ≤ MAX_SAFE_TRIANGLES ∧ (∀ i ∈ cubeI, i < KEYBASE) ∧
      (computeMeshDiagnostics [] cubeI).windingConsistencyPercent = 100 ∧
      (computeMeshDiagnostics [] cubeI).hasConsistentWinding = true := by
  have hcap : cubeI.length / 3 ≤ MAX_SAFE_TRIANGLES := by decide
  have hI : ∀ i ∈ cubeI, i < KEYBASE := by decide
  have h := C2_winding_consistency [] cubeI hcap hI
  refine ⟨hcap, hI, ?_, ?_⟩
  · rw [h.2.2.1]
    decide
  · rw [h.2.2.2.2]
    refine ⟨h.2.2.2.1, ?_⟩
    rw [h.2.2.1]
    decide

/-! ## Claim C6 — edges traversed twice in the same direction -/

/-- C6 counterexample: in the mesh `[0,1,2, 0,1,3]` the undirected edge
`{0,1}` has directed multiplicities `{2,0}`, yet it IS counted: it lies in
the manifold-for-winding set (the denominator) and the program reports
`windingInconsistentEdgeCount = 1` (the numerator), where exclusion would
give `0`. -/
theorem C6_counterexample :
    directedEdgeCount [0, 1, 2, 0, 1, 3] (numericDirectedEdgeKey 0 1) = 2 ∧
      directedEdgeCount [0, 1, 2, 0, 1, 3] (numericDirectedEdgeKey 1 0) = 0 ∧
      numericEdgeKey 0 1 ∈ manifoldWindingEdges [0, 1, 2, 0, 1, 3] ∧
      numericEdgeKey 0 1 ∈ inconsistentWindingEdges [0, 1, 2, 0, 1, 3] ∧
      (computeMeshDiagnostics [] [0, 1, 2, 0, 1, 3]).windingInconsistentEdgeCount = 1 ∧
      (computeMeshDiagnostics [] [0, 1, 2, 0, 1, 3]).windingConsistencyPercent = 0 := by
  refine ⟨by decide, by decide, by decide, by decide, ?_, ?_⟩ <;>
    rw [computeMeshDiagnostics_of_le [] [0, 1, 2, 0, 1, 3] (by decide)] <;> decide

/-- C6 amended: an undirected edge traversed twice in the same direction
(directed multiplicities `{2,0}`) is INCLUDED in both the numerator and the
denominator of the winding-consistency computation: it counts as a
manifold-for-winding edge and as a winding-inconsistent edge. -/
theorem C6_same_direction_edge_included (P : List ℚ) (I : List ℕ) (a b : ℕ)
    (hcap : I.length / 3 ≤ MAX_SAFE_TRIANGLES) (hI : ∀ i ∈ I, i < KEYBASE)
    (ha : a < KEYBASE) (hb : b < KEYBASE)
    (hf : directedEdgeCount I (numericDirectedEdgeKey a b) = 2)
    (hg : directedEdgeCount I (numericDirectedEdgeKey b a) = 0) :
    numericEdgeKey a b ∈ manifoldWindingEdges I ∧
      numericEdgeKey a b ∈ inconsistentWindingEdges I ∧
      (computeMeshDiagnostics P I).windingInconsistentEdgeCount =
        ((inconsistentWindingEdges I).card : ℤ) := by
  have hne : a ≠ b := by
    rintro rfl
    rw [hf] at hg
    exact absurd hg (by norm_num)
  have hmem : numericEdgeKey a b ∈ undirEdgeFinset I := by
    have hpos : 0 < (directedKeyList I).count (numericDirectedEdgeKey a b) := by
      unfold directedEdgeCount at hf
      omega
    have hkmem := List.count_pos_iff.mp hpos
    unfold undirEdgeFinset
    rw [List.mem_toFinset, List.mem_map]
    refine ⟨numericDirectedEdgeKey a b, hkmem, ?_⟩
    unfold undirOf
    rw [div_numericDirectedEdgeKey _ _ hb, mod_numericDirectedEdgeKey _ _ hb]
  have hdec : decodeEdgeKey (numericEdgeKey a b) = (min a b, max a b) :=
    decode_numericEdgeKey a b ha hb
  have hFG : windF I (numericEdgeKey a b) + windG I (numericEdgeKey a b) = 2 ∧
      ¬(windF I (numericEdgeKey a b) = 1 ∧ windG I (numericEdgeKey a b) = 1) := by
    unfold windF windG
    rw [hdec]
    rcases le_total a b with hle | hle
    · rw [min_eq_left hle, max_eq_right hle]
      dsimp only
      rw [hf, hg]
      omega
    · rw [min_eq_right hle, max_eq_left hle]
      dsimp only
      rw [hf, hg]
      omega
  have hman : numericEdgeKey a b ∈ manifoldWindingEdges I := by
    unfold manifoldWindingEdges
    rw [Finset.mem_filter]
    exact ⟨hmem, hFG.1⟩
  refine ⟨hman, ?_, ?_⟩
  · unfold inconsistentWindingEdges
    rw [Finset.mem_filter]
    exact ⟨hman, hFG.2⟩
  · rw [computeMeshDiagnostics_of_le P I hcap]
    show ((detectWindingConsistency I).inconsistentEdgeCount : ℤ) = _
    rw [detectWindingConsistency_spec I hcap hI]

/-- Witness for the amended C6 at the mesh `[0,1,2, 0,1,3]`. -/
theorem C6_same_direction_edge_included_witness :
    numericEdgeKey 0 1 ∈ manifoldWindingEdges [0, 1, 2, 0, 1, 3] ∧
      numericEdgeKey 0 1 ∈ inconsistentWindingEdges [0, 1, 2, 0, 1, 3] ∧
      (computeMeshDiagnostics [] [0, 1, 2, 0, 1, 3]).windingInconsistentEdgeCount =
        ((inconsistentWindingEdges [0, 1, 2, 0, 1, 3]).card : ℤ) :=
  C6_same_direction_edge_included [] [0, 1, 2, 0, 1, 3] 0 1 (by decide) (by decide)
    (by decide) (by decide) (by decide) (by decide)

/-! ## Claim C4 — degeneracy threshold -/

/-- C4 counterexample: at `degP`/`degI` the engine counts one degenerate
triangle — it compares `areaSq = 0.25·‖n‖² = A²` against
`10⁻⁸·0.1875·ℓ̄²` — while the spec's `4A²` reading counts none. -/
theorem C4_counterexample :
    (computeMeshDiagnostics degP degI).degenerateTriangleCount = 1 ∧
      specDegenerateCount degP degI = 0 := by
  constructor
  · rw [computeMeshDiagnostics_of_le degP degI (by decide)]
    decide
  · decide

/-- C4 amended: a triangle is degenerate iff `A² < 10⁻⁸·0.1875·ℓ̄²` —
equivalently `4A² < 4·10⁻⁸·0.1875·ℓ̄²`, stated here with the engine's
`triNormSq = ‖n‖² = 4A²`. -/
theorem C4_degenerate_threshold (P : List ℚ) (I : List ℕ)
    (hcap : I.length / 3 ≤ MAX_SAFE_TRIANGLES) :
    (computeMeshDiagnostics P I).degenerateTriangleCount =
      (((tris I).countP fun t => decide (triNormSq P t < 4 * areaThresholdSq P I)) : ℤ) := by
  rw [computeMeshDiagnostics_of_le P I hcap]
  show (degenerateTriangleCountOf P I : ℤ) = _
  unfold degenerateTriangleCountOf
  congr 1
  refine List.countP_congr fun t _ => ?_
  simp only [decide_eq_true_iff]
  constructor <;> intro h <;> linarith

/-- Witness for the amended C4 at the `degP` mesh. -/
theorem C4_degenerate_threshold_witness :
    degI.length / 3 ≤ MAX_SAFE_TRIANGLES ∧
      (computeMeshDiagnostics degP degI).degenerateTriangleCount =
        (((tris degI).countP fun t =>
          decide (triNormSq degP t < 4 * areaThresholdSq degP degI)) : ℤ) ∧
      ((tris degI).countP fun t =>
        decide (triNormSq degP t < 4 * areaThresholdSq degP degI)) = 1 := by
  refine ⟨by decide, C4_degenerate_threshold degP degI (by decide), ?_⟩
  decide

/-! ## Claim C9 — tiny-triangle median -/

/-- C9 counterexample: with areas `{1, 0.009}` (even count) the engine's
upper-middle median is `1` and it counts one tiny triangle, while the
statistical median `0.5045` of the spec's reading counts none. -/
theorem C9_counterexample :
    (computeMeshDiagnostics tinyP tinyI).tinyTriangleCount = 1 ∧
      specTinyCount tinyP tinyI = 0 := by
  constructor
  · rw [computeMeshDiagnostics_of_le tinyP tinyI (by decide)]
    decide
  · decide

/-- C9 amended: `tinyTriangleCount` counts the triangles with strictly
positive area strictly below `0.01` times the UPPER median — element
`⌊T/2⌋` of the ascending-sorted area list (for odd `T` this is the median;
for even `T` it is the upper middle element, not the two-element mean). -/
theorem C9_tiny_upper_median (P : List ℚ) (I : List ℕ)
    (hcap : I.length / 3 ≤ MAX_SAFE_TRIANGLES) (_hT : 0 < I.length / 3) :
    (computeMeshDiagnostics P I).tinyTriangleCount =
      (((tris I).countP fun t => decide (0 < triArea P t ∧
        triArea P t < ((triangleAreasOf P I).insertionSort (· ≤ ·)).getD
          ((I.length / 3) / 2) 0 * (1 / 100))) : ℤ) := by
  rw [computeMeshDiagnostics_of_le P I hcap]
  show (tinyTriangleCountOf P I : ℤ) = _
  have hlen : ((triangleAreasOf P I).insertionSort (· ≤ ·)).length = I.length / 3 := by
    rw [(List.perm_insertionSort (· ≤ ·) (triangleAreasOf P I)).length_eq]
    unfold triangleAreasOf
    rw [List.length_map, length_tris]
  simp only [tinyTriangleCountOf, medianAreaOf, hlen]
  conv_lhs => rw [triangleAreasOf, List.countP_map]
  congr 1
  refine List.countP_congr fun t _ => ?_
  simp only [Function.comp, decide_eq_true_iff, triangleAreasOf]
  exact and_comm

/-- Witness for the amended C9 at the `tinyP` mesh. -/
theorem C9_tiny_upper_median_witness :
    tinyI.length / 3 ≤ MAX_SAFE_TRIANGLES ∧ 0 < tinyI.length / 3 ∧
      (computeMeshDiagnostics tinyP tinyI).tinyTriangleCount =
        (((tris tinyI).countP fun t => decide (0 < triArea tinyP t ∧
          triArea tinyP t < ((triangleAreasOf tinyP tinyI).insertionSort (· ≤ ·)).getD
            ((tinyI.length / 3) / 2) 0 * (1 / 100))) : ℤ) ∧
      ((tris tinyI).countP fun t => decide (0 < triArea tinyP t ∧
        triArea tinyP t < ((triangleAreasOf tinyP tinyI).insertionSort (· ≤ ·)).getD
          ((tinyI.length / 3) / 2) 0 * (1 / 100))) = 1 := by
  refine ⟨by decide, by decide, C9_tiny_upper_median tinyP tinyI (by decide) (by decide), ?_⟩
  decide

/-! ## Claim C3 — overlay cardinalities -/

theorem length_flatMap_ite {α β : Type} (l : List α) (p : α → Prop) [DecidablePred p]
    (f : α → List β) (n : ℕ) (hf : ∀ k ∈ l, p k → (f k).length = n) :
    (l.flatMap fun k => if p k then f k else []).length =
      n * l.countP fun k => decide (p k) := by
  induction l with
  | nil => simp
  | cons a l ih =>
    simp only [List.flatMap_cons, List.length_append, List.countP_cons]
    rw [ih fun k hk hp => hf k (List.mem_cons_of_mem _ hk) hp]
    by_cases hp : p a
    · rw [if_pos hp, hf a (List.mem_cons_self _ _) hp, decide_eq_true hp]
      simp only [if_pos]
      ring
    · rw [if_neg hp, decide_eq_false hp]
      simp

theorem length_flatMap_const {α β : Type} (l : List α) (f : α → List β) (n : ℕ)
    (hf : ∀ x ∈ l, (f x).length = n) : (l.flatMap f).length = n * l.length := by
  induction l with
  | nil => simp
  | cons a l ih =>
    simp only [List.flatMap_cons, List.length_append, List.length_cons]
    rw [ih fun x hx => hf x (List.mem_cons_of_mem _ hx), hf a (List.mem_cons_self _ _)]
    ring

/-- C3 counterexample: at the `tjP` mesh the counting pass (spatial grid,
edges indexed only at endpoints and midpoint) finds one T-junction, but the
overlay's brute-force re-run finds two, so `|tJunctionVertices| = 6 ≠ 3·1`. -/
theorem C3_counterexample :
    (computeMeshDiagnostics tjP tjI).tJunctionCount = 1 ∧
      (extractProblemGeometry tjP tjI (computeMeshDiagnostics tjP tjI)).tJunctionVertices.length
        = 6 := by
  constructor
  · rw [computeMeshDiagnostics_of_le tjP tjI (by decide)]
    decide
  · decide

/-- C3 amended: below the capacity cap the first three overlay
cardinalities match the counts, but the T-junction overlay re-runs the
predicate BRUTE-FORCE over all (vertex, edge) pairs, so its length is three
times the brute-force vertex count (gated on a positive `tJunctionCount`),
which can differ from `3·tJunctionCount`. -/
theorem C3_overlay_cardinalities (P : List ℚ) (I : List ℕ)
    (hcap : I.length / 3 ≤ MAX_SAFE_TRIANGLES) :
    ((extractProblemGeometry P I (computeMeshDiagnostics P I)).boundaryEdges.length : ℤ) =
        6 * (computeMeshDiagnostics P I).boundaryEdgeCount ∧
      ((extractProblemGeometry P I (computeMeshDiagnostics P I)).nonManifoldEdges.length : ℤ) =
        6 * (computeMeshDiagnostics P I).nonManifoldEdgeCount ∧
      ((extractProblemGeometry P I
          (computeMeshDiagnostics P I)).nonManifoldVertices.length : ℤ) =
        3 * (computeMeshDiagnostics P I).nonManifoldVertexCount ∧
      ((extractProblemGeometry P I (computeMeshDiagnostics P I)).tJunctionVertices.length : ℤ) =
        (if 0 < (computeMeshDiagnostics P I).tJunctionCount then
          3 * ((findTJunctionVertices P I (computeBoundingBox P).diagonal).length : ℤ)
        else 0) := by
  rw [computeMeshDiagnostics_of_le P I hcap]
  unfold extractProblemGeometry
  refine ⟨?_, ?_, ?_, ?_⟩
  · show (((edgeKeys I).flatMap fun k =>
      if (facesOf I k).length = 1 then
        let e := decodeEdgeKey k
        [vx P e.1, vy P e.1, vz P e.1, vx P e.2, vy P e.2, vz P e.2]
      else []).length : ℤ) = 6 * (boundaryEdgeCountOf I : ℤ)
    rw [length_flatMap_ite (edgeKeys I) (fun k => (facesOf I k).length = 1)
      (fun k =>
        let e := decodeEdgeKey k
        [vx P e.1, vy P e.1, vz P e.1, vx P e.2, vy P e.2, vz P e.2]) 6
      (fun k _ _ => rfl)]
    unfold boundaryEdgeCountOf
    rw [List.countP_congr fun k _ => ?_]
    · push_cast
      ring
    · simp only [decide_eq_true_iff]
      rw [length_facesOf]
  · show (((edgeKeys I).flatMap fun k =>
      if 2 < (facesOf I k).length then
        let e := decodeEdgeKey k
        [vx P e.1, vy P e.1, vz P e.1, vx P e.2, vy P e.2, vz P e.2]
      else []).length : ℤ) = 6 * (nonManifoldEdgeCountOf I : ℤ)
    rw [length_flatMap_ite (edgeKeys I) (fun k => 2 < (facesOf I k).length)
      (fun k =>
        let e := decodeEdgeKey k
        [vx P e.1, vy P e.1, vz P e.1, vx P e.2, vy P e.2, vz P e.2]) 6
      (fun k _ _ => rfl)]
    unfold nonManifoldEdgeCountOf
    rw [List.countP_congr fun k _ => ?_]
    · push_cast
      ring
    · simp only [decide_eq_true_iff]
      rw [length_facesOf]
  · show ((if 0 < (detectNonManifoldVertices I : ℤ) then
      (nonManifoldVertexList I).flatMap fun v => [vx P v, vy P v, vz P v]
      else []).length : ℤ) = 3 * (detectNonManifoldVertices I : ℤ)
    by_cases hpos : 0 < (detectNonManifoldVertices I : ℤ)
    · rw [if_pos hpos,
        length_flatMap_const (nonManifoldVertexList I)
          (fun v => [vx P v, vy P v, vz P v]) 3 (fun v _ => rfl)]
      unfold detectNonManifoldVertices
      push_cast
      ring
    · rw [if_neg hpos]
      have h0 : detectNonManifoldVertices I = 0 := by omega
      rw [h0]
      simp
  · show ((if 0 < (detectTJunctions P I (some (computeBoundingBox P)) : ℤ) then
      (findTJunctionVertices P I
        ((some (computeBoundingBox P)).elim 1 BoundingBox.diagonal)).flatMap
        fun v => [vx P v, vy P v, vz P v]
      else []).length : ℤ) =
      (if 0 < (detectTJunctions P I (some (computeBoundingBox P)) : ℤ) then
        3 * ((findTJunctionVertices P I (computeBoundingBox P).diagonal).length : ℤ)
      else 0)
    simp only [Option.elim]
    by_cases hpos : 0 < (detectTJunctions P I (some (computeBoundingBox P)) : ℤ)
    · rw [if_pos hpos, if_pos hpos,
        length_flatMap_const (findTJunctionVertices P I (computeBoundingBox P).diagonal)
          (fun v => [vx P v, vy P v, vz P v]) 3 (fun v _ => rfl)]
      push_cast
      ring
    · rw [if_neg hpos, if_neg hpos]
      rfl

/-- Witness for the amended C3 at the `tjP` mesh (six boundary edges). -/
theorem C3_overlay_cardinalities_witness :
    tjI.length / 3 ≤ MAX_SAFE_TRIANGLES ∧
      ((extractProblemGeometry tjP tjI (computeMeshDiagnostics tjP tjI)).boundaryEdges.length :
        ℤ) = 6 * (computeMeshDiagnostics tjP tjI).boundaryEdgeCount :=
  ⟨by decide, (C3_overlay_cardinalities tjP tjI (by decide)).1⟩

/-! ### C5: overlay vs diagnostic self-intersection pair sets -/

/-- **C5 counterexample.**  On `straddleP`/`straddleI` (two disjoint
triangles whose planes mutually straddle but whose intersection intervals
are disjoint) the overlay's pair finder — which stops after the straddle
rejections — reports the pair `(0, 1)`, while the diagnostic pass, running
the full Möller interval test, counts zero self-intersections.  The two
pair sets are therefore not equal. -/
theorem C5_counterexample :
    findIntersectingTrianglePairs straddleP straddleI = [(0, 1)] ∧
      (computeMeshDiagnostics straddleP straddleI).selfIntersectionCount = 0 := by
  constructor
  · decide
  · decide

/-- **C5** (amended).  The overlay re-runs the same broad phase but a
strictly weaker narrow phase: `trianglesIntersectSimple` keeps only the two
mutual plane-straddle rejection tests of the full Möller test
`trianglesIntersect`, so every pair the diagnostic pass counts also passes
the overlay's test — the overlay's pair set is a superset (and can be a
strict superset) of the counted set. -/
theorem C5_simple_narrow_phase_superset (T1 T2 : TriC)
    (h : trianglesIntersect T1 T2 = true) :
    trianglesIntersectSimple T1 T2 = true := by
  unfold trianglesIntersect at h
  unfold trianglesIntersectSimple
  simp only at h ⊢
  split_ifs at h ⊢ <;> rfl

/-- Witness for the amended C5: the crossing pair of `crossP` passes the
full Möller test, hence also the simplified one. -/
theorem C5_simple_narrow_phase_superset_witness :
    trianglesIntersectSimple (triCOf crossP (0, 1, 2)) (triCOf crossP (3, 4, 5)) = true :=
  C5_simple_narrow_phase_superset (triCOf crossP (0, 1, 2)) (triCOf crossP (3, 4, 5))
    (by decide)

/-! ### C8: translation invariance -/

/-- The valence histogram sees only in-range indices: the `v < V` guard
makes the unfiltered and the pre-filtered index arrays agree. -/
theorem computeValenceDistribution_filter (I : List ℕ) (V : ℕ) :
    computeValenceDistribution I V =
      computeValenceDistribution (I.filter fun i => i < V) V := by
  unfold computeValenceDistribution
  have hval : ∀ v ∈ List.range V,
      valenceOf I V v = valenceOf (I.filter fun i => i < V) V v := by
    intro v hv
    have hvV : v < V := List.mem_range.mp hv
    unfold valenceOf
    rw [if_pos hvV, if_pos hvV, List.count_filter (by simpa using hvV)]
  rw [List.map_congr_left hval]

/-- Every triangle's three undirected keys are keys of the edge-face map,
out-of-range indices included. -/
theorem triEdgeKeys_mem_edgeKeys (I : List ℕ) (t : ℕ × ℕ × ℕ) (ht : t ∈ tris I) :
    numericEdgeKey t.1 t.2.1 ∈ edgeKeys I ∧ numericEdgeKey t.2.1 t.2.2 ∈ edgeKeys I ∧
      numericEdgeKey t.2.2 t.1 ∈ edgeKeys I := by
  have hmem : ∀ k ∈ triEdgeKeys t, k ∈ edgeKeys I := by
    intro k hk
    unfold edgeKeys
    rw [mem_dedupFirst]
    unfold edgeKeyList
    exact List.mem_flatMap.mpr ⟨t, ht, hk⟩
  refine ⟨hmem _ ?_, hmem _ ?_, hmem _ ?_⟩ <;> simp [triEdgeKeys]

/-- **C10.**  An input with out-of-range vertex indices is analyzed, not
rejected: the offending triangles still count toward `triangleCount` and
contribute all three edge keys to the edge-face map (hence to `edgeCount`
and the boundary/non-manifold classification over its keys), while the
used-vertex set and the valence histogram drop indices `≥ vertexCount`, so
`eulerCharacteristic` and `isolatedVertexCount` are computed over the
in-range used vertices only. -/
theorem C10_out_of_range_indices (P : List ℚ) (I : List ℕ)
    (hcap : I.length / 3 ≤ MAX_SAFE_TRIANGLES) :
    (computeMeshDiagnostics P I).triangleCount = ((I.length / 3 : ℕ) : ℤ) ∧
      (computeMeshDiagnostics P I).edgeCount = ((edgeKeys I).length : ℤ) ∧
      (∀ t ∈ tris I, numericEdgeKey t.1 t.2.1 ∈ edgeKeys I ∧
        numericEdgeKey t.2.1 t.2.2 ∈ edgeKeys I ∧ numericEdgeKey t.2.2 t.1 ∈ edgeKeys I) ∧
      (computeMeshDiagnostics P I).boundaryEdgeCount =
        (((edgeKeys I).countP fun k => edgeIncidence I k = 1 : ℕ) : ℤ) ∧
      (computeMeshDiagnostics P I).nonManifoldEdgeCount =
        (((edgeKeys I).countP fun k => 2 < edgeIncidence I k : ℕ) : ℤ) ∧
      (computeMeshDiagnostics P I).isolatedVertexCount =
        ((P.length / 3 : ℕ) : ℤ) -
          ((dedupFirst (I.filter fun i => i < P.length / 3)).length : ℕ) ∧
      (computeMeshDiagnostics P I).eulerCharacteristic =
        ((dedupFirst (I.filter fun i => i < P.length / 3)).length : ℤ) -
          (edgeKeys I).length + ((I.length / 3 : ℕ) : ℤ) ∧
      (computeMeshDiagnostics P I).valenceDistribution =
        some (computeValenceDistribution (I.filter fun i => i < P.length / 3)
          (P.length / 3)) := by
  rw [computeMeshDiagnostics_of_le P I hcap]
  refine ⟨rfl, rfl, fun t ht => triEdgeKeys_mem_edgeKeys I t ht, rfl, rfl, rfl, ?_, ?_⟩
  · show (usedVertexCountOf I (P.length / 3) : ℤ) - (edgeCountOf I : ℕ) + _ = _
    rfl
  · show some (computeValenceDistribution I (P.length / 3)) = _
    rw [computeValenceDistribution_filter I (P.length / 3)]

/-- Witness for C10 at `oorP`/`oorI`: index `5` is out of range (`V = 3`),
yet the mesh is analyzed with both triangles counted. -/
theorem C10_out_of_range_indices_witness :
    oorI.length / 3 ≤ MAX_SAFE_TRIANGLES ∧ (5 ∈ oorI ∧ ¬ 5 < oorP.length / 3) ∧
      (computeMeshDiagnostics oorP oorI).triangleCount = ((oorI.length / 3 : ℕ) : ℤ) :=
  ⟨by decide, by decide, (C10_out_of_range_indices oorP oorI (by decide)).1⟩

/-! ### C7: permutation of the triangle list -/

end GlbAnalyzer
